import Mathlib

/-!
# 3x-UI-Bot: a shallow embedding of `main.go`

The program is a Telegram bot in front of a panel's HTTP API.  The embedding
keeps the structure of the Go source:

* the panel (and the cookie jar, the network, the clock) is a deterministic
  state machine `World σ`: `roundTrip` is `c.http.Do(req)` and `now` is
  `time.Now()`;
* the mutable part of the program (`c.loggedAt`) and an event trace live in
  `State σ`; every function threads the state explicitly;
* `doJSON` and `doRaw` are recursive in the source without a bound, so the
  embedding takes a fuel argument and returns `none` when the fuel runs out;
* Go `string` values are modelled as `String` (texts of Telegram messages are
  valid UTF-8), byte slices as lists of bytes, `int`/`int64`/`time.Duration`
  as `Int` with explicit wrap-around to 64 bits;
* functions of the Go standard library whose exact output does not matter
  (`encoding/json`, the `%s`/`%v` verbs on non-string values) are fields of
  `Lib`.
-/

namespace XuiBot

/-! ## Machine integers and durations -/

/-- Two's-complement wrap-around of an integer to the range of `int64`. -/
def wrapInt64 (x : Int) : Int := (x + 2 ^ 63) % 2 ^ 64 - 2 ^ 63

/-- Membership in the range of `int64` (and of `int` on a 64-bit platform). -/
def isInt64 (x : Int) : Prop := -(2 : Int) ^ 63 ≤ x ∧ x < (2 : Int) ^ 63

instance (x : Int) : Decidable (isInt64 x) := by unfold isInt64; infer_instance

/-- Multiplication of two `int64` (or `time.Duration`) values as Go computes it. -/
def mulInt64 (a b : Int) : Int := wrapInt64 (a * b)

/-- The constant `time.Second`, in nanoseconds. -/
def Second : Int := 1000000000

/-! ## Data model -/

abbrev Byte := Fin 256
abbrev Bytes := List Byte

/-- An instant as returned by `time.Now()`; `0` is the zero `time.Time`. -/
abbrev Time := Nat

/-- The struct `Config`. -/
structure Config where
  PanelURL : String
  Username : String
  Password : String
  TelegramBotToken : String
  AdminChatIDs : List Int
  CronSpec : String
  InsecureSkipVerify : Bool
  RequestTimeoutSec : Int

/-- The immutable part of `APIClient`: the base URL, the credentials and the two
settings of the `http.Client` that `NewAPIClient` computes. -/
structure APIClient where
  baseURL : String
  username : String
  password : String
  timeout : Int
  insecureSkipVerify : Bool
deriving DecidableEq, Repr

/-- An HTTP request as built by `http.NewRequestWithContext` plus the optional
`Content-Type: application/json` header. -/
structure Request where
  method : String
  url : String
  body : Option Bytes
  jsonContentType : Bool
deriving DecidableEq, Repr

/-- A response body: the bytes that can be read and the error, if any, with
which reading ends (`io.ReadAll` returns both). -/
structure Body where
  data : Bytes
  readErr : Option String
deriving DecidableEq, Repr

/-- The part of `http.Response` the program reads. -/
structure Response where
  statusCode : Int
  body : Body
deriving DecidableEq, Repr

/-- What `c.http.Do(req)` returns: a transport error (network failure, client
timeout, expired context) or a response. -/
inductive Outcome where
  | transportError (msg : String)
  | response (resp : Response)
deriving DecidableEq, Repr

/-- The environment of the client: the panel together with the cookie jar and
the clock, as a deterministic state machine. -/
structure World (σ : Type) where
  roundTrip : σ → Request → Outcome × σ
  now : σ → Time

/-- Functions of the program that the trace records on entry. -/
inductive Fn where
  | Login
  | ServerStatus
  | OnlineClients
  | Inbounds
  | GetDB
  | GetConfigJSON
  | handleCommand
deriving DecidableEq, Repr

/-- Observable events: entry into a function of the program, one call of
`c.http.Do`, and the two kinds of `bot.Send`. -/
inductive Event where
  | call (fn : Fn)
  | http (req : Request)
  | sendMessage (chatID : Int) (text : String) (parseMode : String)
  | sendDocument (chatID : Int) (name : String) (bytes : Bytes)
deriving DecidableEq, Repr

/-- The mutable state: the environment, the field `c.loggedAt`, and the trace of
events so far (oldest first). -/
structure State (σ : Type) where
  panel : σ
  loggedAt : Time
  trace : List Event

/-- A decoded JSON value (`any` after `encoding/json` decoding); a number keeps
its literal. -/
inductive JVal where
  | null
  | bool (b : Bool)
  | num (literal : String)
  | str (s : String)
  | arr (items : List JVal)
  | obj (fields : List (String × JVal))

/-- A decoded JSON object, `map[string]any`, as an association list. -/
abbrev JMap := List (String × JVal)

/-- Standard-library functions taken as parameters. -/
structure Lib where
  /-- `json.Marshal` of the login credentials map. -/
  marshalLogin : String → String → Bytes
  /-- `json.NewDecoder(body).Decode(&out)` for `out : map[string]any`. -/
  decodeMap : Body → Except String JMap
  /-- The same for `out : []string`. -/
  decodeStrings : Body → Except String (List String)
  /-- The same for `out : []map[string]any`. -/
  decodeMaps : Body → Except String (List JMap)
  /-- `json.MarshalIndent(v, "", "  ")` converted to a string. -/
  marshalIndent : JMap → String
  /-- The verb `%s` applied to a byte slice. -/
  bytesString : Bytes → String
  /-- The verb `%v` applied to a number, an array or an object. -/
  sprintOther : JVal → String

/-! ## The API client -/

/-- `strings.TrimRight(s, "/")`: remove all trailing slashes. -/
def trimRightSlash (s : String) : String :=
  String.mk ((s.data.reverse.dropWhile (fun ch => ch == '/')).reverse)

/-- `io.ReadAll(resp.Body)`. -/
def readAll (b : Body) : Bytes × Option String := (b.data, b.readErr)

/-- `NewAPIClient`: the request timeout is `RequestTimeoutSec * time.Second`
computed in `int64`, replaced by 15 seconds when that product is not positive. -/
def NewAPIClient (cfg : Config) : APIClient :=
  let d := mulInt64 cfg.RequestTimeoutSec Second
  let d := if d ≤ 0 then mulInt64 15 Second else d
  { baseURL := trimRightSlash cfg.PanelURL
    username := cfg.Username
    password := cfg.Password
    timeout := d
    insecureSkipVerify := cfg.InsecureSkipVerify }

/-- Append one event to the trace. -/
def State.log {σ : Type} (s : State σ) (e : Event) : State σ :=
  { s with trace := s.trace ++ [e] }

/-- `c.http.Do(req)`: one step of the environment, recorded in the trace. -/
def httpDo {σ : Type} (W : World σ) (s : State σ) (req : Request) : Outcome × State σ :=
  let r := W.roundTrip s.panel req
  (r.1, { panel := r.2, loggedAt := s.loggedAt, trace := s.trace ++ [Event.http req] })

/-- The request that `Login` sends. -/
def loginRequest (L : Lib) (c : APIClient) : Request :=
  { method := "POST"
    url := c.baseURL ++ "/login"
    body := some (L.marshalLogin c.username c.password)
    jsonContentType := true }

/-- `APIClient.Login`: `none` is the `nil` error. -/
def Login {σ : Type} (L : Lib) (W : World σ) (c : APIClient) (s : State σ) :
    Option String × State σ :=
  let s0 := s.log (Event.call Fn.Login)
  match httpDo W s0 (loginRequest L c) with
  | (Outcome.transportError e, s1) => (some e, s1)
  | (Outcome.response resp, s1) =>
    if resp.statusCode ≠ 200 then
      (some ("login failed: " ++ L.bytesString (readAll resp.body).1), s1)
    else
      (none, { s1 with loggedAt := W.now s1.panel })

/-- The request that `doJSON` and `doRaw` build: `payload` is `none` for a `nil`
payload and otherwise holds its `json.Marshal` encoding; the content type is
set exactly when there is a payload. -/
def apiRequest (c : APIClient) (method path : String) (payload : Option Bytes) : Request :=
  { method := method
    url := c.baseURL ++ path
    body := payload
    jsonContentType := payload.isSome }

/-- `APIClient.doJSON`, with the decoder of the (non-nil) `out` argument as a
parameter.  The source calls itself after a successful re-login; each call
of the function consumes one unit of fuel. -/
def doJSON {σ α : Type} (L : Lib) (W : World σ) (decode : Body → Except String α)
    (c : APIClient) (method path : String) (payload : Option Bytes) :
    Nat → State σ → Option (Except String α × State σ)
  | 0, _ => none
  | fuel + 1, s =>
    match httpDo W s (apiRequest c method path payload) with
    | (Outcome.transportError e, s1) => some (Except.error e, s1)
    | (Outcome.response resp, s1) =>
      if resp.statusCode = 401 then
        match Login L W c s1 with
        | (some e, s2) => some (Except.error e, s2)
        | (none, s2) => doJSON L W decode c method path payload fuel s2
      else if resp.statusCode < 200 ∨ resp.statusCode ≥ 300 then
        some (Except.error ("api failed: " ++ L.bytesString (readAll resp.body).1), s1)
      else
        some (decode resp.body, s1)

/-- `APIClient.doRaw`. -/
def doRaw {σ : Type} (L : Lib) (W : World σ) (c : APIClient) (method path : String) :
    Nat → State σ → Option (Except String Bytes × State σ)
  | 0, _ => none
  | fuel + 1, s =>
    match httpDo W s (apiRequest c method path none) with
    | (Outcome.transportError e, s1) => some (Except.error e, s1)
    | (Outcome.response resp, s1) =>
      if resp.statusCode = 401 then
        match Login L W c s1 with
        | (some e, s2) => some (Except.error e, s2)
        | (none, s2) => doRaw L W c method path fuel s2
      else if resp.statusCode < 200 ∨ resp.statusCode ≥ 300 then
        some (Except.error ("api failed: " ++ L.bytesString (readAll resp.body).1), s1)
      else
        match readAll resp.body with
        | (data, none) => some (Except.ok data, s1)
        | (_, some e) => some (Except.error e, s1)

/-- The `json.Marshal` encoding of the empty map that `OnlineClients` posts:
an opening and a closing brace. -/
def emptyObjectJSON : Bytes := [123, 125]

/-- `APIClient.ServerStatus`. -/
def ServerStatus {σ : Type} (L : Lib) (W : World σ) (c : APIClient) (fuel : Nat)
    (s : State σ) : Option (Except String JMap × State σ) :=
  doJSON L W L.decodeMap c "GET" "/panel/api/server/status" none fuel
    (s.log (Event.call Fn.ServerStatus))

/-- `APIClient.OnlineClients`. -/
def OnlineClients {σ : Type} (L : Lib) (W : World σ) (c : APIClient) (fuel : Nat)
    (s : State σ) : Option (Except String (List String) × State σ) :=
  doJSON L W L.decodeStrings c "POST" "/panel/api/inbounds/onlines" (some emptyObjectJSON) fuel
    (s.log (Event.call Fn.OnlineClients))

/-- `APIClient.Inbounds`. -/
def Inbounds {σ : Type} (L : Lib) (W : World σ) (c : APIClient) (fuel : Nat)
    (s : State σ) : Option (Except String (List JMap) × State σ) :=
  doJSON L W L.decodeMaps c "GET" "/panel/api/inbounds/list" none fuel
    (s.log (Event.call Fn.Inbounds))

/-- `APIClient.GetDB`. -/
def GetDB {σ : Type} (L : Lib) (W : World σ) (c : APIClient) (fuel : Nat)
    (s : State σ) : Option (Except String Bytes × State σ) :=
  doRaw L W c "GET" "/panel/api/server/getDb" fuel (s.log (Event.call Fn.GetDB))

/-- `APIClient.GetConfigJSON`. -/
def GetConfigJSON {σ : Type} (L : Lib) (W : World σ) (c : APIClient) (fuel : Nat)
    (s : State σ) : Option (Except String Bytes × State σ) :=
  doRaw L W c "GET" "/panel/api/server/getConfigJson" fuel (s.log (Event.call Fn.GetConfigJSON))

/-! ## Helpers of the dispatcher -/

/-- `isAdmin`: `slices.Contains(cfg.AdminChatIDs, id)`. -/
def isAdmin (cfg : Config) (id : Int) : Bool := cfg.AdminChatIDs.contains id

/-- `prettyJSON`. -/
def prettyJSON (L : Lib) (v : JMap) : String := L.marshalIndent v

/-- `strings.NewReplacer(oldnew...).Replace` for old strings of one character
(the byte-to-string replacer of the library): one pass from left to right in
which a character that is an old string is replaced by the new string of the
first pair, in argument order, that lists it, and any other character is
copied. -/
def replacerReplace (pairs : List (Char × List Char)) : List Char → List Char
  | [] => []
  | ch :: rest =>
    (match pairs.lookup ch with
     | some new => new
     | none => [ch]) ++ replacerReplace pairs rest

/-- `escapeHTML`. -/
def escapeHTML (s : String) : String :=
  String.mk (replacerReplace
    [('&', "&amp;".data), ('<', "&lt;".data), ('>', "&gt;".data)] s.data)

/-- `unicode.IsSpace`. -/
def isSpace (ch : Char) : Bool :=
  let n := ch.toNat
  n == 0x09 || n == 0x0A || n == 0x0B || n == 0x0C || n == 0x0D || n == 0x20 ||
  n == 0x85 || n == 0xA0 || n == 0x1680 || (0x2000 ≤ n && n ≤ 0x200A) ||
  n == 0x2028 || n == 0x2029 || n == 0x202F || n == 0x205F || n == 0x3000

/-- `strings.TrimSpace`: remove leading and trailing white space. -/
def trimSpace (s : String) : String :=
  String.mk (((s.data.dropWhile isSpace).reverse.dropWhile isSpace).reverse)

/-- `strings.HasPrefix`. -/
def hasPrefix (s pre : String) : Bool := pre.data.isPrefixOf s.data

/-- The verb `%v` applied to the result of a map lookup of type `any`: a missing
key and a JSON null are the nil interface, printed as the nil marker; a
string is printed as it is. -/
def sprintV (L : Lib) : Option JVal → String
  | none => "<nil>"
  | some JVal.null => "<nil>"
  | some (JVal.str s) => s
  | some (JVal.bool true) => "true"
  | some (JVal.bool false) => "false"
  | some v => L.sprintOther v

/-- The verb `%v` applied to a `[]string`: the elements separated by blanks, in
square brackets. -/
def sprintStrings (l : List String) : String := "[" ++ " ".intercalate l ++ "]"

/-- The map lookup `i[key]` on a `map[string]any`. -/
def JMap.get (m : JMap) (key : String) : Option JVal := m.lookup key

/-- One line of the reply to `/inbounds`: `fmt.Sprintf("• %v\n", i["remark"])`. -/
def inboundLine (L : Lib) (i : JMap) : String :=
  "• " ++ sprintV L (i.get "remark") ++ "\n"

/-- The loop over the inbounds that fills the `strings.Builder`, started from
the builder content `sb`. -/
def inboundsText (L : Lib) (sb : String) : List JMap → String
  | [] => sb
  | i :: rest => inboundsText L (sb ++ inboundLine L i) rest

/-! ## Telegram updates -/

/-- The field `Chat` of a Telegram message. -/
structure TgChat where
  ID : Int
deriving DecidableEq, Repr

/-- The field `From` of a Telegram message: the user who sent it. -/
structure TgUser where
  ID : Int
deriving DecidableEq, Repr

/-- The part of `tgbotapi.Message` the program reads (`Chat` and `Text`) together
with the sender `From`, which the program never reads; `none` is a nil
`From` (a channel post). -/
structure TgMessage where
  From : Option TgUser
  Chat : TgChat
  Text : String
deriving DecidableEq, Repr

/-- The part of `tgbotapi.Update` the program reads; `none` is a nil `Message`. -/
structure TgUpdate where
  Message : Option TgMessage
deriving DecidableEq, Repr

/-- `bot.Send(tgbotapi.NewMessage(chatID, text))`; the parse mode is left empty. -/
def sendText {σ : Type} (s : State σ) (chatID : Int) (text : String) : State σ :=
  s.log (Event.sendMessage chatID text "")

/-- `bot.Send(tgbotapi.NewDocument(chatID, tgbotapi.FileBytes{Name, Bytes}))`. -/
def sendFile {σ : Type} (s : State σ) (chatID : Int) (name : String) (bytes : Bytes) :
    State σ :=
  s.log (Event.sendDocument chatID name bytes)

/-- The static reply to `/start`. -/
def helpText : String :=
  "✅ 3x-ui Independent Bot\n\nCommands:\n/status\n/online\n/inbounds\n/backup\n/help"

/-- `handleCommand`, applied to the (non-nil) message of the update. -/
def handleCommand {σ : Type} (L : Lib) (W : World σ) (c : APIClient) (fuel : Nat)
    (msg : TgMessage) (s : State σ) : Option (State σ) :=
  let s := s.log (Event.call Fn.handleCommand)
  let chatID := msg.Chat.ID
  let text := trimSpace msg.Text
  if hasPrefix text "/start" then
    some (sendText s chatID helpText)
  else if hasPrefix text "/status" then
    match ServerStatus L W c fuel s with
    | none => none
    | some (Except.error e, s1) => some (sendText s1 chatID ("❌ status error: " ++ e))
    | some (Except.ok stat, s1) =>
      some (sendText s1 chatID ("<pre>" ++ escapeHTML (prettyJSON L stat) ++ "</pre>"))
  else if hasPrefix text "/online" then
    match OnlineClients L W c fuel s with
    | none => none
    | some (Except.error e, s1) => some (sendText s1 chatID ("❌ online error: " ++ e))
    | some (Except.ok list, s1) =>
      if list.length = 0 then
        some (sendText s1 chatID "No online clients")
      else
        some (sendText s1 chatID ("🟢 Online: " ++ sprintStrings list))
  else if hasPrefix text "/inbounds" then
    match Inbounds L W c fuel s with
    | none => none
    | some (Except.error e, s1) => some (sendText s1 chatID ("❌ inbounds error: " ++ e))
    | some (Except.ok inb, s1) => some (sendText s1 chatID (inboundsText L "" inb))
  else if hasPrefix text "/backup" then
    match GetDB L W c fuel s with
    | none => none
    | some (r1, s1) =>
      let s2 := match r1 with
        | Except.ok db => sendFile s1 chatID "x-ui.db" db
        | Except.error _ => s1
      match GetConfigJSON L W c fuel s2 with
      | none => none
      | some (r2, s3) =>
        match r2 with
        | Except.ok cfgjson => some (sendFile s3 chatID "config.json" cfgjson)
        | Except.error _ => some s3
  else
    some (sendText s chatID "Unknown command.")

/-- One iteration of the loop of `main` that receives `upd` from the update
channel. -/
def mainUpdate {σ : Type} (L : Lib) (W : World σ) (cfg : Config) (c : APIClient)
    (fuel : Nat) (upd : TgUpdate) (s : State σ) : Option (State σ) :=
  match upd.Message with
  | none => some s
  | some msg =>
    if !isAdmin cfg msg.Chat.ID then
      some (sendText s msg.Chat.ID "Not authorized.")
    else
      handleCommand L W c fuel msg s

/-- How a call of `sendPeriodicStatus` ends: with the `nil` error, with an error,
or with the run-time panic of an index out of range. -/
inductive PeriodicResult where
  | ok
  | err (msg : String)
  | indexPanic
deriving DecidableEq, Repr

/-- `sendPeriodicStatus`. -/
def sendPeriodicStatus {σ : Type} (L : Lib) (W : World σ) (cfg : Config) (c : APIClient)
    (fuel : Nat) (s : State σ) : Option (PeriodicResult × State σ) :=
  if cfg.AdminChatIDs.length = 0 then
    some (PeriodicResult.err "no admin", s)
  else
    match ServerStatus L W c fuel s with
    | none => none
    | some (Except.error e, s1) => some (PeriodicResult.err e, s1)
    | some (Except.ok stat, s1) =>
      match cfg.AdminChatIDs[0]? with
      | none => some (PeriodicResult.indexPanic, s1)
      | some admin =>
        some (PeriodicResult.ok,
          s1.log (Event.sendMessage admin
            ("⏰ Status\n<pre>" ++ escapeHTML (prettyJSON L stat) ++ "</pre>") "HTML"))

/-! ## Projections of a trace -/

/-- The functions entered, in order. -/
def calls (t : List Event) : List Fn :=
  t.filterMap (fun e => match e with
    | Event.call fn => some fn
    | _ => none)

/-- The API operations entered, in order: every recorded function except
`Login` and `handleCommand`. -/
def apiCalls (t : List Event) : List Fn :=
  (calls t).filter (fun fn => fn != Fn.Login && fn != Fn.handleCommand)

/-- The HTTP requests sent, in order. -/
def requests (t : List Event) : List Request :=
  t.filterMap (fun e => match e with
    | Event.http req => some req
    | _ => none)

/-- The messages and documents sent to Telegram, in order. -/
def sends (t : List Event) : List Event :=
  t.filter (fun e => match e with
    | Event.sendMessage _ _ _ => true
    | Event.sendDocument _ _ _ => true
    | _ => false)

/-- The result `doJSON` computes from a response whose status is not 401. -/
def jsonResult {α : Type} (L : Lib) (decode : Body → Except String α) (resp : Response) :
    Except String α :=
  if resp.statusCode < 200 ∨ resp.statusCode ≥ 300 then
    Except.error ("api failed: " ++ L.bytesString (readAll resp.body).1)
  else
    decode resp.body

/-- The result `doRaw` computes from a response whose status is not 401. -/
def rawResult (L : Lib) (resp : Response) : Except String Bytes :=
  if resp.statusCode < 200 ∨ resp.statusCode ≥ 300 then
    Except.error ("api failed: " ++ L.bytesString (readAll resp.body).1)
  else
    match readAll resp.body with
    | (data, none) => Except.ok data
    | (_, some e) => Except.error e

/-- The state after one request: the environment moved to `p`, the request
recorded. -/
def afterRequest {σ : Type} (s : State σ) (req : Request) (p : σ) : State σ :=
  { panel := p, loggedAt := s.loggedAt, trace := s.trace ++ [Event.http req] }

/-- The state in which the retried request is sent: after the first request was
answered with 401 (leaving the environment in `p1`) and the login that
followed was accepted (leaving it in `p2`). -/
def afterRelogin {σ : Type} (L : Lib) (W : World σ) (c : APIClient) (s : State σ)
    (req : Request) (p2 : σ) : State σ :=
  { panel := p2, loggedAt := W.now p2,
    trace := s.trace ++ [Event.http req, Event.call Fn.Login, Event.http (loginRequest L c)] }

/-- The replacement of one character as the specification words it: the three
special characters become their entities, any other character is kept. -/
def escapeChar (ch : Char) : List Char :=
  if ch = '&' then "&amp;".data
  else if ch = '<' then "&lt;".data
  else if ch = '>' then "&gt;".data
  else [ch]

/-- The escaping as the specification words it: every character replaced on its
own, in order. -/
def escapeSpec (s : String) : String := String.mk (s.data.flatMap escapeChar)

/-- The five command prefixes of `handleCommand`, in the order of its cases. -/
def commandPrefixes : List String := ["/start", "/status", "/online", "/inbounds", "/backup"]

/-! ## Concrete inputs -/

/-- A configuration with the given admin ids and timeout setting. -/
def demoConfig (admins : List Int) (timeoutSec : Int) : Config :=
  { PanelURL := "https://panel.example/"
    Username := "admin"
    Password := "secret"
    TelegramBotToken := "token"
    AdminChatIDs := admins
    CronSpec := ""
    InsecureSkipVerify := false
    RequestTimeoutSec := timeoutSec }

/-- A client for the concrete inputs. -/
def demoClient : APIClient :=
  { baseURL := "https://panel.example"
    username := "admin"
    password := "secret"
    timeout := 15000000000
    insecureSkipVerify := false }

/-- Library functions for the concrete inputs: bytes are shown as Latin-1 text,
every body decodes to a fixed value. -/
def demoLib : Lib :=
  { marshalLogin := fun _ _ => [123, 125]
    decodeMap := fun _ => Except.ok [("cpu", JVal.str "<1&2>")]
    decodeStrings := fun _ => Except.ok ["a", "b"]
    decodeMaps := fun _ => Except.ok [[("remark", JVal.str "X")], [("remark", JVal.str "Y")]]
    marshalIndent := fun m => String.join (m.map (fun kv => kv.1 ++ "\n"))
    bytesString := fun b => String.mk (b.map (fun x => Char.ofNat x.val))
    sprintOther := fun _ => "?" }

/-- A scripted environment: the pending outcomes are handed out in order, one per
request; the clock counts the requests served. -/
structure Script where
  pending : List Outcome
  clock : Nat
deriving DecidableEq, Repr

/-- The state machine of a scripted environment; when the script is exhausted
every request fails in the transport. -/
def scriptWorld : World Script :=
  { roundTrip := fun st _ =>
      match st.pending with
      | [] => (Outcome.transportError "EOF", { pending := [], clock := st.clock + 1 })
      | o :: rest => (o, { pending := rest, clock := st.clock + 1 })
    now := fun st => st.clock }

/-- A response with the given status and body bytes, read without error. -/
def reply (status : Int) (data : Bytes) : Outcome :=
  Outcome.response { statusCode := status, body := { data := data, readErr := none } }

/-- The initial state over a script. -/
def scriptState (outcomes : List Outcome) : State Script :=
  { panel := { pending := outcomes, clock := 0 }, loggedAt := 0, trace := [] }

/-- A message in a private chat: the chat id is the id of the sender. -/
def demoMessage (chatID : Int) (text : String) : TgMessage :=
  { From := some { ID := chatID }, Chat := { ID := chatID }, Text := text }

/-- A message sent by the user `sender` in the group chat `chatID`. -/
def groupMessage (sender chatID : Int) (text : String) : TgMessage :=
  { From := some { ID := sender }, Chat := { ID := chatID }, Text := text }

/-- A panel with a session: the state tells whether the client is logged in. The
login POST opens the session, a request whose URL ends in `/logout` closes
it, and every other request is answered 200 inside a session and 401
outside. -/
def sessionWorld : World Bool :=
  { roundTrip := fun loggedIn req =>
      if hasPrefix req.url "https://panel.example/login" then (reply 200 [], true)
      else if hasPrefix req.url "https://panel.example/logout" then (reply 200 [], false)
      else if loggedIn then (reply 200 [104, 105], true)
      else (reply 401 [], false)
    now := fun _ => 0 }

/-- The state over `sessionWorld` with an open session. -/
def sessionState : State Bool := { panel := true, loggedAt := 0, trace := [] }

/-- The request of `GetDB` by the concrete client. -/
def getDbRequest : Request := apiRequest demoClient "GET" "/panel/api/server/getDb" none

/-- A script in which the session has expired once: 401, login accepted, then
the database bytes. -/
def expiredOnce : List Outcome := [reply 401 [], reply 200 [], reply 200 [1, 2, 3]]

/-- A script in which the retried request is answered with 401 again: 401, login
accepted, 401, login accepted, then the database bytes. -/
def expiredTwice : List Outcome :=
  [reply 401 [], reply 200 [], reply 401 [], reply 200 [], reply 200 [7]]

/-- The request `req`, sent in the environment state `p`, is not answered with
status 401 (it is answered with another status, or fails in the transport). -/
def notAnswered401 {σ : Type} (W : World σ) (p : σ) (req : Request) : Prop :=
  ∀ (resp : Response) (p2 : σ),
    W.roundTrip p req = (Outcome.response resp, p2) → resp.statusCode ≠ 401

/-- The events the API client itself produces: entries into `Login` and HTTP
requests. -/
def clientOnly (t : List Event) : Prop :=
  ∀ e ∈ t, e = Event.call Fn.Login ∨ ∃ req, e = Event.http req

/-- A panel that answers every request with status 200 and two bytes. -/
def okWorld : World Unit :=
  { roundTrip := fun _ _ => (reply 200 [104, 105], ())
    now := fun _ => 0 }

/-- The initial state over `okWorld`. -/
def okState : State Unit := { panel := (), loggedAt := 0, trace := [] }

/-- A script for `/backup`: the database request fails with status 500, the
config request returns two bytes. -/
def backupScript : List Outcome := [reply 500 [], reply 200 [9, 9]]

/-- The text of the periodic status message for a status payload. -/
def periodicText (L : Lib) (stat : JMap) : String :=
  "⏰ Status\n<pre>" ++ escapeHTML (prettyJSON L stat) ++ "</pre>"

/-! ## Lemmas on machine arithmetic -/

theorem wrapInt64_of_isInt64 (x : Int) (h : isInt64 x) : wrapInt64 x = x := by
  unfold isInt64 at h
  unfold wrapInt64
  norm_num at h ⊢
  omega

theorem wrapInt64_seconds (n : Int) (h1 : -9223372036 ≤ n) (h2 : n ≤ 9223372036) :
    mulInt64 n Second = n * 1000000000 := by
  unfold mulInt64 Second
  apply wrapInt64_of_isInt64
  unfold isInt64
  norm_num
  omega

/-! ## C10: the request timeout -/

/-- C10 (as stated, refuted): `request_timeout_seconds = 9223372037` is a positive
`int64` value, yet the timeout is 15 seconds and not 9223372037 seconds,
because the product with `time.Second` wraps around to a negative value; and
`request_timeout_seconds = -9223372037` is not positive, yet the timeout is
not 15 seconds, because the product wraps around to a positive value. -/
theorem NewAPIClient_timeout_overflow :
    isInt64 9223372037 ∧ (0 : Int) < 9223372037 ∧
    (NewAPIClient (demoConfig [] 9223372037)).timeout = 15 * Second ∧
    (NewAPIClient (demoConfig [] 9223372037)).timeout ≠ 9223372037 * Second ∧
    isInt64 (-9223372037) ∧ (-9223372037 : Int) ≤ 0 ∧
    (NewAPIClient (demoConfig [] (-9223372037))).timeout = 9223372036709551616 ∧
    (NewAPIClient (demoConfig [] (-9223372037))).timeout ≠ 15 * Second := by
  decide

/-- C10 (amended): for every configuration the timeout computed by `NewAPIClient`
is the product `request_timeout_seconds * 10^9` wrapped to signed 64 bits
when that wrapped product is positive and 15 seconds otherwise; hence it is
15 seconds for `-9223372036 ≤ request_timeout_seconds ≤ 0`, exactly
`request_timeout_seconds` seconds for `0 < request_timeout_seconds ≤
9223372036`, and strictly positive in every case. -/
theorem NewAPIClient_timeout (cfg : Config) :
    (NewAPIClient cfg).timeout =
      (if wrapInt64 (cfg.RequestTimeoutSec * 1000000000) ≤ 0 then 15000000000
       else wrapInt64 (cfg.RequestTimeoutSec * 1000000000)) ∧
    (-9223372036 ≤ cfg.RequestTimeoutSec → cfg.RequestTimeoutSec ≤ 0 →
      (NewAPIClient cfg).timeout = 15 * Second) ∧
    (0 < cfg.RequestTimeoutSec → cfg.RequestTimeoutSec ≤ 9223372036 →
      (NewAPIClient cfg).timeout = cfg.RequestTimeoutSec * Second) ∧
    0 < (NewAPIClient cfg).timeout := by
  have h15 : mulInt64 15 Second = 15000000000 := by decide
  have hT : (NewAPIClient cfg).timeout =
      (if mulInt64 cfg.RequestTimeoutSec Second ≤ 0 then mulInt64 15 Second
       else mulInt64 cfg.RequestTimeoutSec Second) := rfl
  refine ⟨?_, ?_, ?_, ?_⟩
  · rw [hT, h15]; rfl
  · intro h1 h2
    rw [hT, h15, wrapInt64_seconds _ h1 (by omega)]
    unfold Second
    rw [if_pos (by omega)]
    norm_num
  · intro h1 h2
    rw [hT, h15, wrapInt64_seconds _ (by omega) h2]
    unfold Second
    rw [if_neg (by omega)]
  · rw [hT, h15]
    split
    · norm_num
    · omega

/-- C10 (amended), at `request_timeout_seconds = 30` and at `0`. -/
theorem NewAPIClient_timeout_witness :
    (NewAPIClient (demoConfig [] 30)).timeout = 30 * Second ∧
    (NewAPIClient (demoConfig [] 0)).timeout = 15 * Second :=
  ⟨(NewAPIClient_timeout (demoConfig [] 30)).2.2.1 (by decide) (by decide),
   (NewAPIClient_timeout (demoConfig [] 0)).2.1 (by decide) (by decide)⟩

/-! ## C5: `Login` -/

/-- What `Login` does when the transport delivers a response. -/
theorem Login_response {σ : Type} (L : Lib) (W : World σ) (c : APIClient) (s : State σ)
    (resp : Response) (p : σ)
    (h : W.roundTrip s.panel (loginRequest L c) = (Outcome.response resp, p)) :
    Login L W c s =
      if resp.statusCode ≠ 200 then
        (some ("login failed: " ++ L.bytesString (readAll resp.body).1),
          { panel := p, loggedAt := s.loggedAt,
            trace := s.trace ++ [Event.call Fn.Login, Event.http (loginRequest L c)] })
      else
        (none,
          { panel := p, loggedAt := W.now p,
            trace := s.trace ++ [Event.call Fn.Login, Event.http (loginRequest L c)] }) := by
  simp only [Login, httpDo, State.log, h, List.append_assoc, List.singleton_append]

/-- C5 (as stated, refuted): the panel answers the login POST with status 201,
which lies in 200..299, and `Login` returns an error and leaves `loggedAt`
unchanged. -/
theorem Login_rejects_201 :
    scriptWorld.roundTrip (scriptState [reply 201 []]).panel (loginRequest demoLib demoClient)
      = (reply 201 [], { pending := [], clock := 1 }) ∧
    (200 : Int) ≤ 201 ∧ (201 : Int) ≤ 299 ∧
    (Login demoLib scriptWorld demoClient (scriptState [reply 201 []])).1
      = some "login failed: " ∧
    (Login demoLib scriptWorld demoClient (scriptState [reply 201 []])).2.loggedAt = 0 := by
  decide

/-- C5 (amended): for every response the panel gives to the login POST, `Login`
returns an error if and only if the status code is different from 200; when
it returns no error `loggedAt` is the time read after the response, and when
it returns an error `loggedAt` is unchanged. -/
theorem Login_error_iff {σ : Type} (L : Lib) (W : World σ) (c : APIClient) (s : State σ)
    (resp : Response) (p : σ)
    (h : W.roundTrip s.panel (loginRequest L c) = (Outcome.response resp, p)) :
    ((Login L W c s).1 ≠ none ↔ resp.statusCode ≠ 200) ∧
    ((Login L W c s).1 = none → (Login L W c s).2.loggedAt = W.now p) ∧
    ((Login L W c s).1 ≠ none → (Login L W c s).2.loggedAt = s.loggedAt) := by
  rw [Login_response L W c s resp p h]
  by_cases hs : resp.statusCode = 200
  · simp [hs]
  · simp [hs]

/-- C5 (amended), at a panel that answers the login POST with status 200 at clock
time 1. -/
theorem Login_error_iff_witness :
    (Login demoLib scriptWorld demoClient (scriptState [reply 200 []])).1 = none ∧
    (Login demoLib scriptWorld demoClient (scriptState [reply 200 []])).2.loggedAt = 1 :=
  have h := Login_error_iff demoLib scriptWorld demoClient (scriptState [reply 200 []])
    { statusCode := 200, body := { data := [], readErr := none } }
    { pending := [], clock := 1 } (by decide)
  have h1 : (Login demoLib scriptWorld demoClient (scriptState [reply 200 []])).1 = none := by
    decide
  ⟨h1, h.2.1 h1⟩

/-! ## C1, C2: re-login on 401 -/

/-- A call of `doJSON` whose request is answered with a status other than 401
returns the result of that response after this one request. -/
theorem doJSON_answer {σ α : Type} (L : Lib) (W : World σ) (decode : Body → Except String α)
    (c : APIClient) (method path : String) (payload : Option Bytes) (fuel : Nat)
    (s : State σ) (resp : Response) (p : σ)
    (h : W.roundTrip s.panel (apiRequest c method path payload) = (Outcome.response resp, p))
    (hne : resp.statusCode ≠ 401) :
    doJSON L W decode c method path payload (fuel + 1) s =
      some (jsonResult L decode resp, afterRequest s (apiRequest c method path payload) p) := by
  simp only [doJSON, httpDo, h, if_neg hne, jsonResult, afterRequest]
  split <;> rfl

/-- A call of `doRaw` whose request is answered with a status other than 401
returns the result of that response after this one request. -/
theorem doRaw_answer {σ : Type} (L : Lib) (W : World σ)
    (c : APIClient) (method path : String) (fuel : Nat)
    (s : State σ) (resp : Response) (p : σ)
    (h : W.roundTrip s.panel (apiRequest c method path none) = (Outcome.response resp, p))
    (hne : resp.statusCode ≠ 401) :
    doRaw L W c method path (fuel + 1) s =
      some (rawResult L resp, afterRequest s (apiRequest c method path none) p) := by
  simp only [doRaw, httpDo, h, if_neg hne, rawResult, afterRequest]
  split
  · rfl
  · split <;> rfl

/-- A call of `doJSON` whose request is answered with 401 logs in and, when the
login succeeds, continues as a call with one unit of fuel less. -/
theorem doJSON_unauthorized {σ α : Type} (L : Lib) (W : World σ)
    (decode : Body → Except String α)
    (c : APIClient) (method path : String) (payload : Option Bytes) (fuel : Nat)
    (s : State σ) (resp : Response) (p : σ)
    (h : W.roundTrip s.panel (apiRequest c method path payload) = (Outcome.response resp, p))
    (h401 : resp.statusCode = 401) :
    doJSON L W decode c method path payload (fuel + 1) s =
      match Login L W c (afterRequest s (apiRequest c method path payload) p) with
      | (some e, s2) => some (Except.error e, s2)
      | (none, s2) => doJSON L W decode c method path payload fuel s2 := by
  simp only [doJSON, httpDo, h, if_pos h401, afterRequest]

/-- The same for `doRaw`. -/
theorem doRaw_unauthorized {σ : Type} (L : Lib) (W : World σ)
    (c : APIClient) (method path : String) (fuel : Nat)
    (s : State σ) (resp : Response) (p : σ)
    (h : W.roundTrip s.panel (apiRequest c method path none) = (Outcome.response resp, p))
    (h401 : resp.statusCode = 401) :
    doRaw L W c method path (fuel + 1) s =
      match Login L W c (afterRequest s (apiRequest c method path none) p) with
      | (some e, s2) => some (Except.error e, s2)
      | (none, s2) => doRaw L W c method path fuel s2 := by
  simp only [doRaw, httpDo, h, if_pos h401, afterRequest]

/-- A 401 followed by an accepted login: `doJSON` continues in `afterRelogin`. -/
theorem doJSON_relogin {σ α : Type} (L : Lib) (W : World σ)
    (decode : Body → Except String α)
    (c : APIClient) (method path : String) (payload : Option Bytes) (fuel : Nat)
    (s : State σ) (r1 r2 : Response) (p1 p2 : σ)
    (h1 : W.roundTrip s.panel (apiRequest c method path payload) = (Outcome.response r1, p1))
    (h401 : r1.statusCode = 401)
    (h2 : W.roundTrip p1 (loginRequest L c) = (Outcome.response r2, p2))
    (h200 : r2.statusCode = 200) :
    doJSON L W decode c method path payload (fuel + 1) s =
      doJSON L W decode c method path payload fuel
        (afterRelogin L W c s (apiRequest c method path payload) p2) := by
  rw [doJSON_unauthorized L W decode c method path payload fuel s r1 p1 h1 h401,
    Login_response L W c _ r2 p2 h2]
  simp [h200, afterRelogin, afterRequest]

/-- A 401 followed by an accepted login: `doRaw` continues in `afterRelogin`. -/
theorem doRaw_relogin {σ : Type} (L : Lib) (W : World σ)
    (c : APIClient) (method path : String) (fuel : Nat)
    (s : State σ) (r1 r2 : Response) (p1 p2 : σ)
    (h1 : W.roundTrip s.panel (apiRequest c method path none) = (Outcome.response r1, p1))
    (h401 : r1.statusCode = 401)
    (h2 : W.roundTrip p1 (loginRequest L c) = (Outcome.response r2, p2))
    (h200 : r2.statusCode = 200) :
    doRaw L W c method path (fuel + 1) s =
      doRaw L W c method path fuel
        (afterRelogin L W c s (apiRequest c method path none) p2) := by
  rw [doRaw_unauthorized L W c method path fuel s r1 p1 h1 h401,
    Login_response L W c _ r2 p2 h2]
  simp [h200, afterRelogin, afterRequest]

/-- C1: if the panel answers the first request of a `doJSON` or `doRaw` call with
401, accepts the login that follows (status 200) and answers the repeated
request with a status other than 401, then the call returns (two units of
fuel suffice), its trace is extended by exactly: the request, one `Login`
with its POST, and the same request (same method, URL and payload) once
more; and the value returned is the one computed from the second response
alone (`jsonResult`, `rawResult`). -/
theorem relogin_then_answer {σ α : Type} (L : Lib) (W : World σ)
    (decode : Body → Except String α)
    (c : APIClient) (method path : String) (payload : Option Bytes) (fuel : Nat)
    (s : State σ) (r1 r2 r3 : Response) (p1 p2 p3 : σ)
    (h1 : W.roundTrip s.panel (apiRequest c method path payload) = (Outcome.response r1, p1))
    (h401 : r1.statusCode = 401)
    (h2 : W.roundTrip p1 (loginRequest L c) = (Outcome.response r2, p2))
    (h200 : r2.statusCode = 200)
    (h3 : W.roundTrip p2 (apiRequest c method path payload) = (Outcome.response r3, p3))
    (hne : r3.statusCode ≠ 401) :
    doJSON L W decode c method path payload (fuel + 2) s =
      some (jsonResult L decode r3,
        { panel := p3, loggedAt := W.now p2,
          trace := s.trace ++
            [Event.http (apiRequest c method path payload), Event.call Fn.Login,
             Event.http (loginRequest L c), Event.http (apiRequest c method path payload)] }) ∧
    (payload = none →
      doRaw L W c method path (fuel + 2) s =
        some (rawResult L r3,
          { panel := p3, loggedAt := W.now p2,
            trace := s.trace ++
              [Event.http (apiRequest c method path none), Event.call Fn.Login,
               Event.http (loginRequest L c), Event.http (apiRequest c method path none)] })) := by
  constructor
  · rw [doJSON_relogin L W decode c method path payload (fuel + 1) s r1 r2 p1 p2 h1 h401 h2 h200,
      doJSON_answer L W decode c method path payload fuel _ r3 p3 h3 hne]
    simp [afterRelogin, afterRequest]
  · intro hp
    subst hp
    rw [doRaw_relogin L W c method path (fuel + 1) s r1 r2 p1 p2 h1 h401 h2 h200,
      doRaw_answer L W c method path fuel _ r3 p3 h3 hne]
    simp [afterRelogin, afterRequest]

/-- C1, at a scripted panel that answers `GetDB` with 401, accepts the login and
then returns three bytes. -/
theorem relogin_then_answer_witness :
    doRaw demoLib scriptWorld demoClient "GET" "/panel/api/server/getDb" 2
        (scriptState expiredOnce) =
      some (Except.ok [1, 2, 3],
        { panel := { pending := [], clock := 3 }, loggedAt := 2,
          trace := [Event.http getDbRequest, Event.call Fn.Login,
            Event.http (loginRequest demoLib demoClient), Event.http getDbRequest] }) :=
  (relogin_then_answer demoLib scriptWorld demoLib.decodeStrings demoClient
    "GET" "/panel/api/server/getDb" none 0 (scriptState expiredOnce)
    { statusCode := 401, body := { data := [], readErr := none } }
    { statusCode := 200, body := { data := [], readErr := none } }
    { statusCode := 200, body := { data := [1, 2, 3], readErr := none } }
    { pending := [reply 200 [], reply 200 [1, 2, 3]], clock := 1 }
    { pending := [reply 200 [1, 2, 3]], clock := 2 }
    { pending := [], clock := 3 }
    (by decide) (by decide) (by decide) (by decide) (by decide) (by decide)).2 rfl

/-- The trace of `Login` whatever the outcome: the entry and the POST. -/
theorem Login_trace {σ : Type} (L : Lib) (W : World σ) (c : APIClient) (s : State σ) :
    (Login L W c s).2.trace =
      s.trace ++ [Event.call Fn.Login, Event.http (loginRequest L c)] := by
  rcases hr : W.roundTrip s.panel (loginRequest L c) with ⟨o, p⟩
  cases o with
  | transportError e => simp [Login, httpDo, State.log, hr]
  | response resp =>
    rw [Login_response L W c s resp p hr]
    split <;> rfl

/-- C2 (as stated, refuted): the scripted panel answers `GetDB` with 401, accepts
the login, and answers the retried request with 401 again; the call does not
return an error after one `Login` and two requests: it logs in a second time,
sends a third request and returns the bytes of the third response. -/
theorem second_401_relogs_in :
    scriptWorld.roundTrip (scriptState expiredTwice).panel getDbRequest
      = (reply 401 [],
          { pending := [reply 200 [], reply 401 [], reply 200 [], reply 200 [7]], clock := 1 }) ∧
    scriptWorld.roundTrip
        { pending := [reply 200 [], reply 401 [], reply 200 [], reply 200 [7]], clock := 1 }
        (loginRequest demoLib demoClient)
      = (reply 200 [], { pending := [reply 401 [], reply 200 [], reply 200 [7]], clock := 2 }) ∧
    scriptWorld.roundTrip { pending := [reply 401 [], reply 200 [], reply 200 [7]], clock := 2 }
        getDbRequest
      = (reply 401 [], { pending := [reply 200 [], reply 200 [7]], clock := 3 }) ∧
    (doRaw demoLib scriptWorld demoClient "GET" "/panel/api/server/getDb" 3
        (scriptState expiredTwice)).map (fun r => (r.1, calls r.2.trace, requests r.2.trace))
      = some (Except.ok [7], [Fn.Login, Fn.Login],
          [getDbRequest, loginRequest demoLib demoClient, getDbRequest,
           loginRequest demoLib demoClient, getDbRequest]) := by
  refine ⟨by decide, by decide, by decide, ?_⟩
  rfl

/-- C2 (amended): if the panel answers the original request of a `doJSON` or
`doRaw` call with 401, accepts the login, and answers the retried request
with 401 again, then the call does not stop there: it performs a second
`Login` (so that the trace holds two requests and two logins at that point);
it returns the error of that `Login` if it fails, and otherwise continues
exactly as a call of the same operation issued in the state after the second
`Login`, which starts with a third request to the same path. -/
theorem second_401_continues {σ α : Type} (L : Lib) (W : World σ)
    (decode : Body → Except String α)
    (c : APIClient) (method path : String) (payload : Option Bytes) (fuel : Nat)
    (s : State σ) (r1 r2 r3 : Response) (p1 p2 p3 : σ)
    (h1 : W.roundTrip s.panel (apiRequest c method path payload) = (Outcome.response r1, p1))
    (h401 : r1.statusCode = 401)
    (h2 : W.roundTrip p1 (loginRequest L c) = (Outcome.response r2, p2))
    (h200 : r2.statusCode = 200)
    (h3 : W.roundTrip p2 (apiRequest c method path payload) = (Outcome.response r3, p3))
    (h401again : r3.statusCode = 401) :
    (doJSON L W decode c method path payload (fuel + 2) s =
      match Login L W c (afterRequest (afterRelogin L W c s (apiRequest c method path payload) p2)
          (apiRequest c method path payload) p3) with
      | (some e, s4) => some (Except.error e, s4)
      | (none, s4) => doJSON L W decode c method path payload fuel s4) ∧
    (payload = none →
      doRaw L W c method path (fuel + 2) s =
        match Login L W c (afterRequest (afterRelogin L W c s (apiRequest c method path none) p2)
            (apiRequest c method path none) p3) with
        | (some e, s4) => some (Except.error e, s4)
        | (none, s4) => doRaw L W c method path fuel s4) ∧
    (Login L W c (afterRequest (afterRelogin L W c s (apiRequest c method path payload) p2)
        (apiRequest c method path payload) p3)).2.trace =
      s.trace ++
        [Event.http (apiRequest c method path payload), Event.call Fn.Login,
         Event.http (loginRequest L c), Event.http (apiRequest c method path payload),
         Event.call Fn.Login, Event.http (loginRequest L c)] := by
  refine ⟨?_, ?_, ?_⟩
  · rw [doJSON_relogin L W decode c method path payload (fuel + 1) s r1 r2 p1 p2 h1 h401 h2 h200,
      doJSON_unauthorized L W decode c method path payload fuel _ r3 p3 h3 h401again]
  · intro hp
    subst hp
    rw [doRaw_relogin L W c method path (fuel + 1) s r1 r2 p1 p2 h1 h401 h2 h200,
      doRaw_unauthorized L W c method path fuel _ r3 p3 h3 h401again]
  · rw [Login_trace]
    simp [afterRequest, afterRelogin]

/-- C2 (amended), at the script with two 401 answers: with one more unit of fuel
the call runs on to the third request and returns its bytes. -/
theorem second_401_continues_witness :
    doRaw demoLib scriptWorld demoClient "GET" "/panel/api/server/getDb" 3
        (scriptState expiredTwice) =
      some (Except.ok [7],
        { panel := { pending := [], clock := 5 }, loggedAt := 4,
          trace := [Event.http getDbRequest, Event.call Fn.Login,
            Event.http (loginRequest demoLib demoClient), Event.http getDbRequest,
            Event.call Fn.Login, Event.http (loginRequest demoLib demoClient),
            Event.http getDbRequest] }) :=
  ((second_401_continues demoLib scriptWorld demoLib.decodeStrings demoClient
    "GET" "/panel/api/server/getDb" none 1 (scriptState expiredTwice)
    { statusCode := 401, body := { data := [], readErr := none } }
    { statusCode := 200, body := { data := [], readErr := none } }
    { statusCode := 401, body := { data := [], readErr := none } }
    { pending := [reply 200 [], reply 401 [], reply 200 [], reply 200 [7]], clock := 1 }
    { pending := [reply 401 [], reply 200 [], reply 200 [7]], clock := 2 }
    { pending := [reply 200 [], reply 200 [7]], clock := 3 }
    (by decide) (by decide) (by decide) (by decide) (by decide) (by decide)).2.1 rfl).trans rfl

/-! ## C3: updates from chats outside the admin list -/

/-- C3 (as stated, refuted): the admins are 1 and -100, and user 99, who is not in
the admin list, sends "/status" in the group chat -100. The loop does not
answer "Not authorized.": it tests the chat id, enters `handleCommand` and
`ServerStatus`, sends the status request and replies with the status. -/
theorem mainUpdate_ignores_sender :
    (99 : Int) ∉ (demoConfig [1, -100] 0).AdminChatIDs ∧
    (groupMessage 99 (-100) "/status").From = some { ID := 99 } ∧
    mainUpdate demoLib okWorld (demoConfig [1, -100] 0) demoClient 1
        { Message := some (groupMessage 99 (-100) "/status") } okState =
      some { panel := (), loggedAt := 0,
             trace := [Event.call Fn.handleCommand, Event.call Fn.ServerStatus,
               Event.http (apiRequest demoClient "GET" "/panel/api/server/status" none),
               Event.sendMessage (-100)
                 ("<pre>" ++ escapeHTML (prettyJSON demoLib [("cpu", JVal.str "<1&2>")])
                   ++ "</pre>") ""] } :=
  ⟨by decide, rfl, rfl⟩

/-- C3 (amended): an update carrying a message whose chat id (`Message.Chat.ID`,
the only id `isAdmin` is applied to; the sender `From` is not consulted) is
not in `AdminChatIDs` extends the trace by exactly one event, the message
"Not authorized." to that chat; nothing else happens: no entry into
`handleCommand` or into a function of the client, no HTTP request, and the
environment and `loggedAt` are unchanged. This holds for every sender, every
message text and every amount of fuel. -/
theorem mainUpdate_not_admin {σ : Type} (L : Lib) (W : World σ) (cfg : Config)
    (c : APIClient) (fuel : Nat) (upd : TgUpdate) (msg : TgMessage) (s : State σ)
    (hmsg : upd.Message = some msg) (hna : msg.Chat.ID ∉ cfg.AdminChatIDs) :
    mainUpdate L W cfg c fuel upd s =
      some { panel := s.panel, loggedAt := s.loggedAt,
             trace := s.trace ++ [Event.sendMessage msg.Chat.ID "Not authorized." ""] } := by
  simp [mainUpdate, hmsg, isAdmin, hna, sendText, State.log]

/-- C3 (amended), at the message "/backup" that admin 1 sends in chat 5 while the
admin list holds 1 and 2: the chat id decides, and the update is rejected. -/
theorem mainUpdate_not_admin_witness :
    mainUpdate demoLib okWorld (demoConfig [1, 2] 0) demoClient 0
        { Message := some (groupMessage 1 5 "/backup") } okState =
      some { panel := (), loggedAt := 0,
             trace := [Event.sendMessage 5 "Not authorized." ""] } :=
  mainUpdate_not_admin demoLib okWorld (demoConfig [1, 2] 0) demoClient 0
    { Message := some (groupMessage 1 5 "/backup") } (groupMessage 1 5 "/backup") okState rfl
    (by decide)

/-! ## C4: routing of commands -/

/-- No command prefix is a prefix of another one. -/
theorem commandPrefixes_pairwise :
    ∀ p ∈ commandPrefixes, ∀ q ∈ commandPrefixes, hasPrefix p q = true → p = q := by
  decide

/-- A text starts with at most one of the command prefixes. -/
theorem commandPrefixes_exclusive (t : String) :
    ∀ p ∈ commandPrefixes, ∀ q ∈ commandPrefixes,
      hasPrefix t p = true → hasPrefix t q = true → p = q := by
  intro p hp q hq h1 h2
  simp only [hasPrefix, List.isPrefixOf_iff_prefix] at h1 h2
  rcases List.prefix_or_prefix_of_prefix h1 h2 with h | h
  · exact (commandPrefixes_pairwise q hq p hp
      (by simpa only [hasPrefix, List.isPrefixOf_iff_prefix] using h)).symm
  · exact commandPrefixes_pairwise p hp q hq
      (by simpa only [hasPrefix, List.isPrefixOf_iff_prefix] using h)

/-- A call of `doJSON` whose request is not answered with 401 returns after that
one request. -/
theorem doJSON_not401 {σ α : Type} (L : Lib) (W : World σ)
    (decode : Body → Except String α)
    (c : APIClient) (method path : String) (payload : Option Bytes) (fuel : Nat)
    (s : State σ)
    (h : notAnswered401 W s.panel (apiRequest c method path payload)) :
    ∃ r, doJSON L W decode c method path payload (fuel + 1) s =
      some (r, afterRequest s (apiRequest c method path payload)
        (W.roundTrip s.panel (apiRequest c method path payload)).2) := by
  rcases hr : W.roundTrip s.panel (apiRequest c method path payload) with ⟨o, p⟩
  cases o with
  | transportError e => exact ⟨Except.error e, by simp [doJSON, httpDo, hr, afterRequest]⟩
  | response resp =>
    exact ⟨_, doJSON_answer L W decode c method path payload fuel s resp p hr (h resp p hr)⟩

/-- A call of `doRaw` whose request is not answered with 401 returns after that
one request. -/
theorem doRaw_not401 {σ : Type} (L : Lib) (W : World σ)
    (c : APIClient) (method path : String) (fuel : Nat) (s : State σ)
    (h : notAnswered401 W s.panel (apiRequest c method path none)) :
    ∃ r, doRaw L W c method path (fuel + 1) s =
      some (r, afterRequest s (apiRequest c method path none)
        (W.roundTrip s.panel (apiRequest c method path none)).2) := by
  rcases hr : W.roundTrip s.panel (apiRequest c method path none) with ⟨o, p⟩
  cases o with
  | transportError e => exact ⟨Except.error e, by simp [doRaw, httpDo, hr, afterRequest]⟩
  | response resp =>
    exact ⟨_, doRaw_answer L W c method path fuel s resp p hr (h resp p hr)⟩

/-- The five tests of `handleCommand` on a text that starts with the command
prefix `p`: only the test for `p` succeeds. -/
theorem hasPrefix_other (t p q : String) (hp : p ∈ commandPrefixes) (hq : q ∈ commandPrefixes)
    (h : hasPrefix t p = true) (hne : p ≠ q) : hasPrefix t q = false := by
  by_contra hc
  exact hne (commandPrefixes_exclusive t p hp q hq h (by simpa using hc))

/-- C4: `handleCommand` routes on the trimmed text by prefix. A text starting
with `/start` is answered with the help text and nothing else happens. For a
text starting with `/status`, `/online` or `/inbounds`, when the request of
that operation is not answered with 401, exactly `ServerStatus`,
`OnlineClients` or `Inbounds` respectively is entered (and no `Login`), and
exactly that one request is sent. For a text starting with `/backup`, when
neither the `getDb` request nor the `getConfigJson` request that follows it
is answered with 401, `GetDB` and then `GetConfigJSON` are entered, each with
its one request. Every text that starts with none of the five prefixes,
`/help` among them, is answered "Unknown command." and nothing else happens.
No prefix is a prefix of another, and a text starts with at most one of them,
so the order of the cases is immaterial. The only assumptions are on the
requests the command sends, in the states in which it sends them. -/
theorem handleCommand_routes {σ : Type} (L : Lib) (W : World σ)
    (c : APIClient) (fuel : Nat) (msg : TgMessage) (s : State σ) :
    (hasPrefix (trimSpace msg.Text) "/start" = true →
      handleCommand L W c fuel msg s =
        some { panel := s.panel, loggedAt := s.loggedAt,
               trace := s.trace ++ [Event.call Fn.handleCommand,
                 Event.sendMessage msg.Chat.ID helpText ""] }) ∧
    (hasPrefix (trimSpace msg.Text) "/status" = true →
      notAnswered401 W s.panel (apiRequest c "GET" "/panel/api/server/status" none) →
      ∃ new s2, handleCommand L W c (fuel + 1) msg s = some s2 ∧
        s2.trace = s.trace ++ new ∧
        calls new = [Fn.handleCommand, Fn.ServerStatus] ∧
        requests new = [apiRequest c "GET" "/panel/api/server/status" none]) ∧
    (hasPrefix (trimSpace msg.Text) "/online" = true →
      notAnswered401 W s.panel
        (apiRequest c "POST" "/panel/api/inbounds/onlines" (some emptyObjectJSON)) →
      ∃ new s2, handleCommand L W c (fuel + 1) msg s = some s2 ∧
        s2.trace = s.trace ++ new ∧
        calls new = [Fn.handleCommand, Fn.OnlineClients] ∧
        requests new =
          [apiRequest c "POST" "/panel/api/inbounds/onlines" (some emptyObjectJSON)]) ∧
    (hasPrefix (trimSpace msg.Text) "/inbounds" = true →
      notAnswered401 W s.panel (apiRequest c "GET" "/panel/api/inbounds/list" none) →
      ∃ new s2, handleCommand L W c (fuel + 1) msg s = some s2 ∧
        s2.trace = s.trace ++ new ∧
        calls new = [Fn.handleCommand, Fn.Inbounds] ∧
        requests new = [apiRequest c "GET" "/panel/api/inbounds/list" none]) ∧
    (hasPrefix (trimSpace msg.Text) "/backup" = true →
      notAnswered401 W s.panel (apiRequest c "GET" "/panel/api/server/getDb" none) →
      notAnswered401 W
        (W.roundTrip s.panel (apiRequest c "GET" "/panel/api/server/getDb" none)).2
        (apiRequest c "GET" "/panel/api/server/getConfigJson" none) →
      ∃ new s2, handleCommand L W c (fuel + 1) msg s = some s2 ∧
        s2.trace = s.trace ++ new ∧
        calls new = [Fn.handleCommand, Fn.GetDB, Fn.GetConfigJSON] ∧
        requests new = [apiRequest c "GET" "/panel/api/server/getDb" none,
          apiRequest c "GET" "/panel/api/server/getConfigJson" none]) ∧
    ((∀ p ∈ commandPrefixes, hasPrefix (trimSpace msg.Text) p = false) →
      handleCommand L W c fuel msg s =
        some { panel := s.panel, loggedAt := s.loggedAt,
               trace := s.trace ++ [Event.call Fn.handleCommand,
                 Event.sendMessage msg.Chat.ID "Unknown command." ""] }) ∧
    (∀ p ∈ commandPrefixes, hasPrefix (trimSpace "/help") p = false) ∧
    (∀ p ∈ commandPrefixes, ∀ q ∈ commandPrefixes, hasPrefix p q = true → p = q) ∧
    (∀ p ∈ commandPrefixes, ∀ q ∈ commandPrefixes,
      hasPrefix (trimSpace msg.Text) p = true → hasPrefix (trimSpace msg.Text) q = true →
        p = q) := by
  have other := hasPrefix_other (trimSpace msg.Text)
  refine ⟨?_, ?_, ?_, ?_, ?_, ?_, by decide, commandPrefixes_pairwise,
    commandPrefixes_exclusive _⟩
  · intro h
    simp [handleCommand, h, sendText, State.log]
  · intro h hno
    have h1 := other "/status" "/start" (by decide) (by decide) h (by decide)
    obtain ⟨r, hr⟩ := doJSON_not401 L W L.decodeMap c "GET" "/panel/api/server/status"
      none fuel ((s.log (Event.call Fn.handleCommand)).log (Event.call Fn.ServerStatus))
      hno
    generalize (W.roundTrip ((s.log (Event.call Fn.handleCommand)).log
      (Event.call Fn.ServerStatus)).panel _).2 = p at hr
    cases r with
    | error e =>
      have hc : handleCommand L W c (fuel + 1) msg s = some (sendText
          (afterRequest ((s.log (Event.call Fn.handleCommand)).log (Event.call Fn.ServerStatus))
            (apiRequest c "GET" "/panel/api/server/status" none) p)
          msg.Chat.ID ("❌ status error: " ++ e)) := by
        simp [handleCommand, h1, h, ServerStatus, hr]
      exact ⟨[Event.call Fn.handleCommand, Event.call Fn.ServerStatus,
        Event.http (apiRequest c "GET" "/panel/api/server/status" none),
        Event.sendMessage msg.Chat.ID ("❌ status error: " ++ e) ""], _, hc,
        by simp [sendText, State.log, afterRequest], rfl, rfl⟩
    | ok stat =>
      have hc : handleCommand L W c (fuel + 1) msg s = some (sendText
          (afterRequest ((s.log (Event.call Fn.handleCommand)).log (Event.call Fn.ServerStatus))
            (apiRequest c "GET" "/panel/api/server/status" none) p)
          msg.Chat.ID ("<pre>" ++ escapeHTML (prettyJSON L stat) ++ "</pre>")) := by
        simp [handleCommand, h1, h, ServerStatus, hr]
      exact ⟨[Event.call Fn.handleCommand, Event.call Fn.ServerStatus,
        Event.http (apiRequest c "GET" "/panel/api/server/status" none),
        Event.sendMessage msg.Chat.ID ("<pre>" ++ escapeHTML (prettyJSON L stat) ++ "</pre>")
          ""], _, hc,
        by simp [sendText, State.log, afterRequest], rfl, rfl⟩
  · intro h hno
    have h1 := other "/online" "/start" (by decide) (by decide) h (by decide)
    have h2 := other "/online" "/status" (by decide) (by decide) h (by decide)
    obtain ⟨r, hr⟩ := doJSON_not401 L W L.decodeStrings c "POST"
      "/panel/api/inbounds/onlines" (some emptyObjectJSON) fuel
      ((s.log (Event.call Fn.handleCommand)).log (Event.call Fn.OnlineClients)) hno
    generalize (W.roundTrip ((s.log (Event.call Fn.handleCommand)).log
      (Event.call Fn.OnlineClients)).panel _).2 = p at hr
    have hc : ∃ txt, handleCommand L W c (fuel + 1) msg s = some (sendText
        (afterRequest ((s.log (Event.call Fn.handleCommand)).log (Event.call Fn.OnlineClients))
          (apiRequest c "POST" "/panel/api/inbounds/onlines" (some emptyObjectJSON)) p)
        msg.Chat.ID txt) := by
      cases r with
      | error e => exact ⟨_, by simp [handleCommand, h1, h2, h, OnlineClients, hr]; rfl⟩
      | ok list =>
        by_cases hl : list.length = 0
        · exact ⟨"No online clients",
            by simp [handleCommand, h1, h2, h, OnlineClients, hr, hl]⟩
        · exact ⟨"🟢 Online: " ++ sprintStrings list,
            by simp [handleCommand, h1, h2, h, OnlineClients, hr, hl]⟩
    obtain ⟨txt, hc⟩ := hc
    exact ⟨[Event.call Fn.handleCommand, Event.call Fn.OnlineClients,
      Event.http (apiRequest c "POST" "/panel/api/inbounds/onlines" (some emptyObjectJSON)),
      Event.sendMessage msg.Chat.ID txt ""], _, hc,
      by simp [sendText, State.log, afterRequest], rfl, rfl⟩
  · intro h hno
    have h1 := other "/inbounds" "/start" (by decide) (by decide) h (by decide)
    have h2 := other "/inbounds" "/status" (by decide) (by decide) h (by decide)
    have h3 := other "/inbounds" "/online" (by decide) (by decide) h (by decide)
    obtain ⟨r, hr⟩ := doJSON_not401 L W L.decodeMaps c "GET"
      "/panel/api/inbounds/list" none fuel
      ((s.log (Event.call Fn.handleCommand)).log (Event.call Fn.Inbounds)) hno
    generalize (W.roundTrip ((s.log (Event.call Fn.handleCommand)).log
      (Event.call Fn.Inbounds)).panel _).2 = p at hr
    have hc : ∃ txt, handleCommand L W c (fuel + 1) msg s = some (sendText
        (afterRequest ((s.log (Event.call Fn.handleCommand)).log (Event.call Fn.Inbounds))
          (apiRequest c "GET" "/panel/api/inbounds/list" none) p)
        msg.Chat.ID txt) := by
      cases r with
      | error e => exact ⟨"❌ inbounds error: " ++ e,
          by simp [handleCommand, h1, h2, h3, h, Inbounds, hr]⟩
      | ok inb => exact ⟨inboundsText L "" inb,
          by simp [handleCommand, h1, h2, h3, h, Inbounds, hr]⟩
    obtain ⟨txt, hc⟩ := hc
    exact ⟨[Event.call Fn.handleCommand, Event.call Fn.Inbounds,
      Event.http (apiRequest c "GET" "/panel/api/inbounds/list" none),
      Event.sendMessage msg.Chat.ID txt ""], _, hc,
      by simp [sendText, State.log, afterRequest], rfl, rfl⟩
  · intro h hno hsec
    have h1 := other "/backup" "/start" (by decide) (by decide) h (by decide)
    have h2 := other "/backup" "/status" (by decide) (by decide) h (by decide)
    have h3 := other "/backup" "/online" (by decide) (by decide) h (by decide)
    have h4 := other "/backup" "/inbounds" (by decide) (by decide) h (by decide)
    obtain ⟨r1, hr1⟩ := doRaw_not401 L W c "GET" "/panel/api/server/getDb" fuel
      ((s.log (Event.call Fn.handleCommand)).log (Event.call Fn.GetDB)) hno
    change notAnswered401 W
      (W.roundTrip ((s.log (Event.call Fn.handleCommand)).log
        (Event.call Fn.GetDB)).panel (apiRequest c "GET" "/panel/api/server/getDb" none)).2
      (apiRequest c "GET" "/panel/api/server/getConfigJson" none) at hsec
    generalize (W.roundTrip ((s.log (Event.call Fn.handleCommand)).log
      (Event.call Fn.GetDB)).panel _).2 = p1 at hr1 hsec
    cases r1 with
    | error e1 =>
      obtain ⟨r2, hr2⟩ := doRaw_not401 L W c "GET" "/panel/api/server/getConfigJson"
        fuel ((afterRequest ((s.log (Event.call Fn.handleCommand)).log (Event.call Fn.GetDB))
          (apiRequest c "GET" "/panel/api/server/getDb" none) p1).log
            (Event.call Fn.GetConfigJSON)) hsec
      generalize (W.roundTrip _ _).2 = p2 at hr2
      cases r2 with
      | error e2 =>
        refine ⟨[Event.call Fn.handleCommand, Event.call Fn.GetDB,
          Event.http (apiRequest c "GET" "/panel/api/server/getDb" none),
          Event.call Fn.GetConfigJSON,
          Event.http (apiRequest c "GET" "/panel/api/server/getConfigJson" none)], ?_⟩
        simp [handleCommand, h1, h2, h3, h4, h, GetDB, GetConfigJSON, hr1, hr2]
        exact ⟨by simp [afterRequest, State.log, sendFile], rfl, rfl⟩
      | ok b2 =>
        refine ⟨[Event.call Fn.handleCommand, Event.call Fn.GetDB,
          Event.http (apiRequest c "GET" "/panel/api/server/getDb" none),
          Event.call Fn.GetConfigJSON,
          Event.http (apiRequest c "GET" "/panel/api/server/getConfigJson" none),
          Event.sendDocument msg.Chat.ID "config.json" b2], ?_⟩
        simp [handleCommand, h1, h2, h3, h4, h, GetDB, GetConfigJSON, hr1, hr2]
        exact ⟨by simp [afterRequest, State.log, sendFile], rfl, rfl⟩
    | ok b1 =>
      obtain ⟨r2, hr2⟩ := doRaw_not401 L W c "GET" "/panel/api/server/getConfigJson"
        fuel ((sendFile (afterRequest
          ((s.log (Event.call Fn.handleCommand)).log (Event.call Fn.GetDB))
          (apiRequest c "GET" "/panel/api/server/getDb" none) p1)
            msg.Chat.ID "x-ui.db" b1).log (Event.call Fn.GetConfigJSON)) hsec
      generalize (W.roundTrip _ _).2 = p2 at hr2
      cases r2 with
      | error e2 =>
        refine ⟨[Event.call Fn.handleCommand, Event.call Fn.GetDB,
          Event.http (apiRequest c "GET" "/panel/api/server/getDb" none),
          Event.sendDocument msg.Chat.ID "x-ui.db" b1,
          Event.call Fn.GetConfigJSON,
          Event.http (apiRequest c "GET" "/panel/api/server/getConfigJson" none)], ?_⟩
        simp [handleCommand, h1, h2, h3, h4, h, GetDB, GetConfigJSON, hr1, hr2]
        exact ⟨by simp [afterRequest, State.log, sendFile], rfl, rfl⟩
      | ok b2 =>
        refine ⟨[Event.call Fn.handleCommand, Event.call Fn.GetDB,
          Event.http (apiRequest c "GET" "/panel/api/server/getDb" none),
          Event.sendDocument msg.Chat.ID "x-ui.db" b1,
          Event.call Fn.GetConfigJSON,
          Event.http (apiRequest c "GET" "/panel/api/server/getConfigJson" none),
          Event.sendDocument msg.Chat.ID "config.json" b2], ?_⟩
        simp [handleCommand, h1, h2, h3, h4, h, GetDB, GetConfigJSON, hr1, hr2]
        exact ⟨by simp [afterRequest, State.log, sendFile], rfl, rfl⟩
  · intro h
    have h1 := h "/start" (by decide)
    have h2 := h "/status" (by decide)
    have h3 := h "/online" (by decide)
    have h4 := h "/inbounds" (by decide)
    have h5 := h "/backup" (by decide)
    simp [handleCommand, h1, h2, h3, h4, h5, sendText, State.log]

/-- A request that an open session of `sessionWorld` answers with its 200 reply
is not answered with 401. -/
theorem sessionWorld_open (req : Request)
    (hr : sessionWorld.roundTrip true req = (reply 200 [104, 105], true)) :
    notAnswered401 sessionWorld true req := by
  intro resp p2 h
  rw [hr] at h
  have h1 : resp = { statusCode := 200, body := { data := [104, 105], readErr := none } } := by
    simp only [reply, Prod.mk.injEq, Outcome.response.injEq] at h
    exact h.1.symm
  rw [h1]
  decide

/-- C4, against a panel with sessions (which answers 401 once logged out), in an
open session: the admin text " /status now" is routed to `ServerStatus`
with its one request, "/backup" to `GetDB` and `GetConfigJSON` with one
request each, and "/help" is answered "Unknown command.". -/
theorem handleCommand_routes_witness :
    (∃ new s2, handleCommand demoLib sessionWorld demoClient 1 (demoMessage 1 " /status now")
        sessionState = some s2 ∧
      s2.trace = sessionState.trace ++ new ∧
      calls new = [Fn.handleCommand, Fn.ServerStatus] ∧
      requests new = [apiRequest demoClient "GET" "/panel/api/server/status" none]) ∧
    (∃ new s2, handleCommand demoLib sessionWorld demoClient 1 (demoMessage 1 "/backup")
        sessionState = some s2 ∧
      s2.trace = sessionState.trace ++ new ∧
      calls new = [Fn.handleCommand, Fn.GetDB, Fn.GetConfigJSON] ∧
      requests new = [apiRequest demoClient "GET" "/panel/api/server/getDb" none,
        apiRequest demoClient "GET" "/panel/api/server/getConfigJson" none]) ∧
    handleCommand demoLib sessionWorld demoClient 0 (demoMessage 1 "/help") sessionState =
      some { panel := true, loggedAt := 0,
             trace := [Event.call Fn.handleCommand,
               Event.sendMessage 1 "Unknown command." ""] } :=
  ⟨(handleCommand_routes demoLib sessionWorld demoClient 0 (demoMessage 1 " /status now")
      sessionState).2.1 (by decide) (sessionWorld_open _ (by decide)),
   (handleCommand_routes demoLib sessionWorld demoClient 0 (demoMessage 1 "/backup")
      sessionState).2.2.2.2.1 (by decide) (sessionWorld_open _ (by decide))
      (sessionWorld_open _ (by decide)),
   (handleCommand_routes demoLib sessionWorld demoClient 0 (demoMessage 1 "/help")
      sessionState).2.2.2.2.2.1 (by decide)⟩

/-! ## Events of the API client -/

theorem clientOnly_nil : clientOnly [] := by
  intro e he
  cases he

theorem clientOnly_append {a b : List Event} (ha : clientOnly a) (hb : clientOnly b) :
    clientOnly (a ++ b) := by
  intro e he
  rcases List.mem_append.1 he with h | h
  · exact ha e h
  · exact hb e h

theorem clientOnly_http (req : Request) : clientOnly [Event.http req] := by
  intro e he
  simp only [List.mem_singleton] at he
  exact Or.inr ⟨req, he⟩

theorem clientOnly_relogin (req q : Request) :
    clientOnly [Event.http req, Event.call Fn.Login, Event.http q] := by
  intro e he
  simp only [List.mem_cons, List.mem_singleton, List.not_mem_nil, or_false] at he
  rcases he with h | h | h
  · exact Or.inr ⟨req, h⟩
  · exact Or.inl h
  · exact Or.inr ⟨q, h⟩

/-- Events of the client are neither sends nor entries into an API operation. -/
theorem clientOnly_sends {t : List Event} (h : clientOnly t) :
    sends t = [] ∧ apiCalls t = [] := by
  induction t with
  | nil => exact ⟨rfl, rfl⟩
  | cons e t ih =>
    have ht : clientOnly t := fun x hx => h x (List.mem_cons_of_mem _ hx)
    obtain ⟨ih1, ih2⟩ := ih ht
    rcases h e (List.mem_cons_self _ _) with he | ⟨req, he⟩
    · subst he
      refine ⟨?_, ?_⟩
      · simpa [sends] using ih1
      · simpa [apiCalls, calls] using ih2
    · subst he
      refine ⟨?_, ?_⟩
      · simpa [sends] using ih1
      · simpa [apiCalls, calls] using ih2

/-- The state after a `Login` call: its trace and nothing about the rest. -/
theorem Login_snd_trace {σ : Type} (L : Lib) (W : World σ) (c : APIClient) (s : State σ)
    (req : Request) (p : σ) :
    (Login L W c (afterRequest s req p)).2.trace =
      s.trace ++ [Event.http req, Event.call Fn.Login, Event.http (loginRequest L c)] := by
  rw [Login_trace]
  simp [afterRequest]

/-- Whenever `doJSON` returns, it has extended the trace by events of the client
only. -/
theorem doJSON_clientOnly {σ α : Type} (L : Lib) (W : World σ)
    (decode : Body → Except String α)
    (c : APIClient) (method path : String) (payload : Option Bytes) :
    ∀ (fuel : Nat) (s : State σ) (r : Except String α) (s2 : State σ),
      doJSON L W decode c method path payload fuel s = some (r, s2) →
      ∃ new, s2.trace = s.trace ++ new ∧ clientOnly new := by
  intro fuel
  induction fuel with
  | zero => intro s r s2 h; simp [doJSON] at h
  | succ n ih =>
    intro s r s2 h
    rcases hr : W.roundTrip s.panel (apiRequest c method path payload) with ⟨o, p⟩
    cases o with
    | transportError e =>
      simp only [doJSON, httpDo, hr, Option.some.injEq, Prod.mk.injEq] at h
      refine ⟨[Event.http (apiRequest c method path payload)], ?_, clientOnly_http _⟩
      rw [← h.2]
    | response resp =>
      by_cases h401 : resp.statusCode = 401
      · rw [doJSON_unauthorized L W decode c method path payload n s resp p hr h401] at h
        have ht := Login_snd_trace L W c s (apiRequest c method path payload) p
        rcases hl : Login L W c (afterRequest s (apiRequest c method path payload) p)
          with ⟨oe, s3⟩
        rw [hl] at h ht
        cases oe with
        | some e =>
          simp only [Option.some.injEq, Prod.mk.injEq] at h
          refine ⟨_, ?_,
            clientOnly_relogin (apiRequest c method path payload) (loginRequest L c)⟩
          rw [← h.2]
          exact ht
        | none =>
          obtain ⟨new, hn, hc⟩ := ih s3 r s2 h
          refine ⟨_ ++ new, ?_, clientOnly_append
            (clientOnly_relogin (apiRequest c method path payload) (loginRequest L c)) hc⟩
          rw [hn, ht, List.append_assoc]
      · rw [doJSON_answer L W decode c method path payload n s resp p hr h401] at h
        simp only [Option.some.injEq, Prod.mk.injEq] at h
        refine ⟨[Event.http (apiRequest c method path payload)], ?_, clientOnly_http _⟩
        rw [← h.2]
        rfl

/-- Whenever `doRaw` returns, it has extended the trace by events of the client
only. -/
theorem doRaw_clientOnly {σ : Type} (L : Lib) (W : World σ)
    (c : APIClient) (method path : String) :
    ∀ (fuel : Nat) (s : State σ) (r : Except String Bytes) (s2 : State σ),
      doRaw L W c method path fuel s = some (r, s2) →
      ∃ new, s2.trace = s.trace ++ new ∧ clientOnly new := by
  intro fuel
  induction fuel with
  | zero => intro s r s2 h; simp [doRaw] at h
  | succ n ih =>
    intro s r s2 h
    rcases hr : W.roundTrip s.panel (apiRequest c method path none) with ⟨o, p⟩
    cases o with
    | transportError e =>
      simp only [doRaw, httpDo, hr, Option.some.injEq, Prod.mk.injEq] at h
      refine ⟨[Event.http (apiRequest c method path none)], ?_, clientOnly_http _⟩
      rw [← h.2]
    | response resp =>
      by_cases h401 : resp.statusCode = 401
      · rw [doRaw_unauthorized L W c method path n s resp p hr h401] at h
        have ht := Login_snd_trace L W c s (apiRequest c method path none) p
        rcases hl : Login L W c (afterRequest s (apiRequest c method path none) p)
          with ⟨oe, s3⟩
        rw [hl] at h ht
        cases oe with
        | some e =>
          simp only [Option.some.injEq, Prod.mk.injEq] at h
          refine ⟨_, ?_, clientOnly_relogin (apiRequest c method path none) (loginRequest L c)⟩
          rw [← h.2]
          exact ht
        | none =>
          obtain ⟨new, hn, hc⟩ := ih s3 r s2 h
          refine ⟨_ ++ new, ?_, clientOnly_append
            (clientOnly_relogin (apiRequest c method path none) (loginRequest L c)) hc⟩
          rw [hn, ht, List.append_assoc]
      · rw [doRaw_answer L W c method path n s resp p hr h401] at h
        simp only [Option.some.injEq, Prod.mk.injEq] at h
        refine ⟨[Event.http (apiRequest c method path none)], ?_, clientOnly_http _⟩
        rw [← h.2]
        rfl

theorem sends_append (a b : List Event) : sends (a ++ b) = sends a ++ sends b := by
  simp [sends]

theorem apiCalls_append (a b : List Event) : apiCalls (a ++ b) = apiCalls a ++ apiCalls b := by
  simp [apiCalls, calls]

theorem sends_call (fn : Fn) (t : List Event) : sends (Event.call fn :: t) = sends t := rfl

theorem sends_document (chatID : Int) (name : String) (b : Bytes) (t : List Event) :
    sends (Event.sendDocument chatID name b :: t) =
      Event.sendDocument chatID name b :: sends t := rfl

theorem sends_message (chatID : Int) (text mode : String) (t : List Event) :
    sends (Event.sendMessage chatID text mode :: t) =
      Event.sendMessage chatID text mode :: sends t := rfl

theorem apiCalls_call (fn : Fn) (t : List Event) :
    apiCalls (Event.call fn :: t) =
      if (fn != Fn.Login && fn != Fn.handleCommand) = true then fn :: apiCalls t
      else apiCalls t := by
  simp only [apiCalls, calls, List.filterMap_cons, List.filter_cons]

theorem apiCalls_document (chatID : Int) (name : String) (b : Bytes) (t : List Event) :
    apiCalls (Event.sendDocument chatID name b :: t) = apiCalls t := rfl

theorem apiCalls_message (chatID : Int) (text mode : String) (t : List Event) :
    apiCalls (Event.sendMessage chatID text mode :: t) = apiCalls t := rfl

/-- Whenever `GetDB` returns, the trace has grown by its entry and events of the
client. -/
theorem GetDB_events {σ : Type} (L : Lib) (W : World σ) (c : APIClient) (fuel : Nat)
    (s : State σ) (r : Except String Bytes) (s2 : State σ)
    (h : GetDB L W c fuel s = some (r, s2)) :
    ∃ new, s2.trace = s.trace ++ Event.call Fn.GetDB :: new ∧ clientOnly new := by
  obtain ⟨new, hn, hc⟩ := doRaw_clientOnly L W c _ _ fuel _ r s2 h
  exact ⟨new, by simp [hn, State.log], hc⟩

/-- Whenever `GetConfigJSON` returns, the trace has grown by its entry and events
of the client. -/
theorem GetConfigJSON_events {σ : Type} (L : Lib) (W : World σ) (c : APIClient) (fuel : Nat)
    (s : State σ) (r : Except String Bytes) (s2 : State σ)
    (h : GetConfigJSON L W c fuel s = some (r, s2)) :
    ∃ new, s2.trace = s.trace ++ Event.call Fn.GetConfigJSON :: new ∧ clientOnly new := by
  obtain ⟨new, hn, hc⟩ := doRaw_clientOnly L W c _ _ fuel _ r s2 h
  exact ⟨new, by simp [hn, State.log], hc⟩

/-- Whenever `ServerStatus` returns, the trace has grown by its entry and events
of the client. -/
theorem ServerStatus_events {σ : Type} (L : Lib) (W : World σ) (c : APIClient) (fuel : Nat)
    (s : State σ) (r : Except String JMap) (s2 : State σ)
    (h : ServerStatus L W c fuel s = some (r, s2)) :
    ∃ new, s2.trace = s.trace ++ Event.call Fn.ServerStatus :: new ∧ clientOnly new := by
  obtain ⟨new, hn, hc⟩ := doJSON_clientOnly L W L.decodeMap c _ _ _ fuel _ r s2 h
  exact ⟨new, by simp [hn, State.log], hc⟩

/-! ## C6: `/backup` -/

/-- C6: for a text starting with `/backup` and every pair of outcomes `r1` of
`GetDB` and `r2` of `GetConfigJSON` (the latter called in the state left by
the former and by the sending of the database file, if any), `handleCommand`
returns; both operations are entered, in this order, whether or not `GetDB`
failed; and what is sent to Telegram is exactly: the document `x-ui.db` with
the bytes of `r1` if `GetDB` succeeded, followed by the document
`config.json` with the bytes of `r2` if `GetConfigJSON` succeeded. No text
message is sent in any case. -/
theorem backup_sends {σ : Type} (L : Lib) (W : World σ) (c : APIClient) (fuel : Nat)
    (msg : TgMessage) (s : State σ)
    (r1 r2 : Except String Bytes) (s1 s3 : State σ)
    (hcmd : hasPrefix (trimSpace msg.Text) "/backup" = true)
    (hdb : GetDB L W c fuel (s.log (Event.call Fn.handleCommand)) = some (r1, s1))
    (hcfg : GetConfigJSON L W c fuel
      (match r1 with
       | Except.ok db => sendFile s1 msg.Chat.ID "x-ui.db" db
       | Except.error _ => s1) = some (r2, s3)) :
    ∃ new s4, handleCommand L W c fuel msg s = some s4 ∧
      s4.trace = s.trace ++ new ∧
      apiCalls new = [Fn.GetDB, Fn.GetConfigJSON] ∧
      sends new =
        (match r1 with
         | Except.ok db => [Event.sendDocument msg.Chat.ID "x-ui.db" db]
         | Except.error _ => []) ++
        (match r2 with
         | Except.ok cfgjson => [Event.sendDocument msg.Chat.ID "config.json" cfgjson]
         | Except.error _ => []) := by
  have other := hasPrefix_other (trimSpace msg.Text) "/backup"
  have h1 := other "/start" (by decide) (by decide) hcmd (by decide)
  have h2 := other "/status" (by decide) (by decide) hcmd (by decide)
  have h3 := other "/online" (by decide) (by decide) hcmd (by decide)
  have h4 := other "/inbounds" (by decide) (by decide) hcmd (by decide)
  obtain ⟨n1, hn1, hc1⟩ := GetDB_events L W c fuel _ r1 s1 hdb
  obtain ⟨n2, hn2, hc2⟩ := GetConfigJSON_events L W c fuel _ r2 s3 hcfg
  obtain ⟨hs1, ha1⟩ := clientOnly_sends hc1
  obtain ⟨hs2, ha2⟩ := clientOnly_sends hc2
  cases r1 with
  | error e1 =>
    cases r2 with
    | error e2 =>
      refine ⟨Event.call Fn.handleCommand :: Event.call Fn.GetDB :: n1 ++
        Event.call Fn.GetConfigJSON :: n2, s3, ?_, ?_, ?_, ?_⟩
      · simp [handleCommand, h1, h2, h3, h4, hcmd, hdb, hcfg]
      · simp [hn2, hn1, State.log]
      · simp [apiCalls_call, apiCalls_append, ha1, ha2]
      · simp [sends_call, sends_append, hs1, hs2]
    | ok b2 =>
      refine ⟨Event.call Fn.handleCommand :: Event.call Fn.GetDB :: n1 ++
        Event.call Fn.GetConfigJSON :: n2 ++ [Event.sendDocument msg.Chat.ID "config.json" b2],
        sendFile s3 msg.Chat.ID "config.json" b2, ?_, ?_, ?_, ?_⟩
      · simp [handleCommand, h1, h2, h3, h4, hcmd, hdb, hcfg]
      · simp [hn2, hn1, State.log, sendFile]
      · simp [apiCalls_call, apiCalls_append, apiCalls_document, ha1, ha2]
        rfl
      · simp [sends_call, sends_append, sends_document, hs1, hs2]
        rfl
  | ok b1 =>
    cases r2 with
    | error e2 =>
      refine ⟨Event.call Fn.handleCommand :: Event.call Fn.GetDB :: n1 ++
        Event.sendDocument msg.Chat.ID "x-ui.db" b1 :: Event.call Fn.GetConfigJSON :: n2,
        s3, ?_, ?_, ?_, ?_⟩
      · simp [handleCommand, h1, h2, h3, h4, hcmd, hdb, hcfg]
      · simp [hn2, hn1, State.log, sendFile]
      · simp [apiCalls_call, apiCalls_append, apiCalls_document, ha1, ha2]
      · simp [sends_call, sends_append, sends_document, hs1, hs2]
    | ok b2 =>
      refine ⟨Event.call Fn.handleCommand :: Event.call Fn.GetDB :: n1 ++
        Event.sendDocument msg.Chat.ID "x-ui.db" b1 :: Event.call Fn.GetConfigJSON :: n2 ++
        [Event.sendDocument msg.Chat.ID "config.json" b2],
        sendFile s3 msg.Chat.ID "config.json" b2, ?_, ?_, ?_, ?_⟩
      · simp [handleCommand, h1, h2, h3, h4, hcmd, hdb, hcfg]
      · simp [hn2, hn1, State.log, sendFile]
      · simp [apiCalls_call, apiCalls_append, apiCalls_document, ha1, ha2]
        rfl
      · simp [sends_call, sends_append, sends_document, hs1, hs2]
        rfl

/-- C6, at a scripted panel where the database request fails with status 500 and
the config request succeeds: exactly one document, the config, is sent. -/
theorem backup_sends_witness :
    ∃ new s4, handleCommand demoLib scriptWorld demoClient 1 (demoMessage 1 "/backup")
        (scriptState backupScript) = some s4 ∧
      s4.trace = (scriptState backupScript).trace ++ new ∧
      apiCalls new = [Fn.GetDB, Fn.GetConfigJSON] ∧
      sends new = [Event.sendDocument 1 "config.json" [9, 9]] :=
  backup_sends demoLib scriptWorld demoClient 1 (demoMessage 1 "/backup")
    (scriptState backupScript)
    (Except.error "api failed: ") (Except.ok [9, 9])
    { panel := { pending := [reply 200 [9, 9]], clock := 1 }, loggedAt := 0,
      trace := [Event.call Fn.handleCommand, Event.call Fn.GetDB, Event.http getDbRequest] }
    { panel := { pending := [], clock := 2 }, loggedAt := 0,
      trace := [Event.call Fn.handleCommand, Event.call Fn.GetDB, Event.http getDbRequest,
        Event.call Fn.GetConfigJSON,
        Event.http (apiRequest demoClient "GET" "/panel/api/server/getConfigJson" none)] }
    (by decide) rfl rfl

/-! ## C7: the periodic status -/

/-- C7: with an empty admin list `sendPeriodicStatus` returns the error "no admin"
and leaves the state, trace included, as it was: no API call, no message.
With a non-empty list, whenever `ServerStatus` returns, `sendPeriodicStatus`
returns; it has entered `ServerStatus` once and no other API operation; if
`ServerStatus` succeeded it has sent exactly one message, to the first admin
id and in HTML mode, and if it failed it has sent nothing and returns that
error. In no case does the call end in the index panic of `AdminChatIDs[0]`. -/
theorem sendPeriodicStatus_spec {σ : Type} (L : Lib) (W : World σ) (cfg : Config)
    (c : APIClient) (fuel : Nat) (s : State σ) :
    (cfg.AdminChatIDs = [] →
      sendPeriodicStatus L W cfg c fuel s = some (PeriodicResult.err "no admin", s)) ∧
    (∀ (admin : Int) (rest : List Int) (r : Except String JMap) (s1 : State σ),
      cfg.AdminChatIDs = admin :: rest →
      ServerStatus L W c fuel s = some (r, s1) →
      ∃ new s2, sendPeriodicStatus L W cfg c fuel s =
          some ((match r with
                 | Except.ok _ => PeriodicResult.ok
                 | Except.error e => PeriodicResult.err e), s2) ∧
        s2.trace = s.trace ++ new ∧
        apiCalls new = [Fn.ServerStatus] ∧
        sends new =
          (match r with
           | Except.ok stat => [Event.sendMessage admin (periodicText L stat) "HTML"]
           | Except.error _ => [])) ∧
    (∀ (res : PeriodicResult) (s2 : State σ),
      sendPeriodicStatus L W cfg c fuel s = some (res, s2) →
        res ≠ PeriodicResult.indexPanic) := by
  refine ⟨?_, ?_, ?_⟩
  · intro h
    simp [sendPeriodicStatus, h]
  · intro admin rest r s1 hcfg hss
    obtain ⟨n1, hn1, hc1⟩ := ServerStatus_events L W c fuel s r s1 hss
    obtain ⟨hs1, ha1⟩ := clientOnly_sends hc1
    cases r with
    | error e =>
      refine ⟨Event.call Fn.ServerStatus :: n1, s1, ?_, hn1, ?_, ?_⟩
      · simp [sendPeriodicStatus, hcfg, hss]
      · simp [apiCalls_call, ha1]
      · simp [sends_call, hs1]
    | ok stat =>
      refine ⟨Event.call Fn.ServerStatus :: n1 ++
        [Event.sendMessage admin (periodicText L stat) "HTML"],
        s1.log (Event.sendMessage admin (periodicText L stat) "HTML"), ?_, ?_, ?_, ?_⟩
      · simp [sendPeriodicStatus, hcfg, hss, periodicText]
      · simp [hn1, State.log]
      · simp [apiCalls_call, apiCalls_append, apiCalls_message, ha1]
        rfl
      · simp [sends_call, sends_append, sends_message, hs1]
        rfl
  · intro res s2 h
    cases hl : cfg.AdminChatIDs with
    | nil =>
      simp [sendPeriodicStatus, hl] at h
      rw [← h.1]
      simp
    | cons a rest =>
      simp only [sendPeriodicStatus, hl, List.length_cons, Nat.add_one_ne_zero, if_false] at h
      rcases hss : ServerStatus L W c fuel s with _ | ⟨r, s1⟩
      · simp [hss] at h
      · cases r with
        | error e =>
          simp [hss] at h
          rw [← h.1]
          simp
        | ok stat =>
          simp [hss] at h
          rw [← h.1]
          simp

/-- C7, against a panel that always answers 200: with admins 1 and 2 exactly one
message is sent, to admin 1; with no admin nothing happens. -/
theorem sendPeriodicStatus_spec_witness :
    (∃ new s2, sendPeriodicStatus demoLib okWorld (demoConfig [1, 2] 0) demoClient 1 okState =
        some (PeriodicResult.ok, s2) ∧
      s2.trace = okState.trace ++ new ∧
      apiCalls new = [Fn.ServerStatus] ∧
      sends new =
        [Event.sendMessage 1 (periodicText demoLib [("cpu", JVal.str "<1&2>")]) "HTML"]) ∧
    sendPeriodicStatus demoLib okWorld (demoConfig [] 0) demoClient 1 okState =
      some (PeriodicResult.err "no admin", okState) :=
  ⟨(sendPeriodicStatus_spec demoLib okWorld (demoConfig [1, 2] 0) demoClient 1 okState).2.1
      1 [2] (Except.ok [("cpu", JVal.str "<1&2>")])
      { panel := (), loggedAt := 0,
        trace := [Event.call Fn.ServerStatus,
          Event.http (apiRequest demoClient "GET" "/panel/api/server/status" none)] }
      rfl rfl,
   (sendPeriodicStatus_spec demoLib okWorld (demoConfig [] 0) demoClient 1 okState).1 rfl⟩

/-! ## C8: HTML escaping -/

/-- The replacer of `escapeHTML` acts on every character on its own. -/
theorem replacerReplace_eq_flatMap (l : List Char) :
    replacerReplace [('&', "&amp;".data), ('<', "&lt;".data), ('>', "&gt;".data)] l =
      l.flatMap escapeChar := by
  induction l with
  | nil => rfl
  | cons ch rest ih =>
    rw [replacerReplace, ih, List.flatMap_cons]
    congr 1
    by_cases h1 : ch = '&'
    · subst h1; rfl
    · by_cases h2 : ch = '<'
      · subst h2; rfl
      · by_cases h3 : ch = '>'
        · subst h3; rfl
        · have e1 : (ch == '&') = false := by simpa using h1
          have e2 : (ch == '<') = false := by simpa using h2
          have e3 : (ch == '>') = false := by simpa using h3
          simp [List.lookup, escapeChar, h1, h2, h3, e1, e2, e3]

theorem escapeHTML_data (s : String) : (escapeHTML s).data = s.data.flatMap escapeChar :=
  replacerReplace_eq_flatMap s.data

/-- The replacement of a character holds neither of the two angle brackets. -/
theorem escapeChar_no_angle (ch : Char) : '<' ∉ escapeChar ch ∧ '>' ∉ escapeChar ch := by
  unfold escapeChar
  split
  · decide
  · split
    · decide
    · split
      · decide
      · rename_i h1 h2 h3
        simp only [List.mem_singleton]
        exact ⟨fun h => h2 h.symm, fun h => h3 h.symm⟩

/-- In the escaped text every suffix that starts with an ampersand starts with
one of the three entities. -/
theorem flatMap_escapeChar_amp (l : List Char) :
    ∀ t : List Char, t <:+ l.flatMap escapeChar → t.head? = some '&' →
      "&amp;".data <+: t ∨ "&lt;".data <+: t ∨ "&gt;".data <+: t := by
  induction l with
  | nil =>
    intro t ht hh
    simp only [List.flatMap_nil, List.suffix_nil] at ht
    subst ht
    simp at hh
  | cons ch rest ih =>
    intro t ht hh
    rw [List.flatMap_cons] at ht
    by_cases h1 : ch = '&'
    · subst h1
      have he : escapeChar '&' = ['&', 'a', 'm', 'p', ';'] := rfl
      rw [he] at ht
      simp only [List.cons_append, List.nil_append, List.suffix_cons_iff] at ht
      rcases ht with h | h | h | h | h | h
      · subst h
        exact Or.inl (List.prefix_append ['&', 'a', 'm', 'p', ';'] _)
      · subst h; simp at hh
      · subst h; simp at hh
      · subst h; simp at hh
      · subst h; simp at hh
      · exact ih t h hh
    · by_cases h2 : ch = '<'
      · subst h2
        have he : escapeChar '<' = ['&', 'l', 't', ';'] := rfl
        rw [he] at ht
        simp only [List.cons_append, List.nil_append, List.suffix_cons_iff] at ht
        rcases ht with h | h | h | h | h
        · subst h
          exact Or.inr (Or.inl (List.prefix_append ['&', 'l', 't', ';'] _))
        · subst h; simp at hh
        · subst h; simp at hh
        · subst h; simp at hh
        · exact ih t h hh
      · by_cases h3 : ch = '>'
        · subst h3
          have he : escapeChar '>' = ['&', 'g', 't', ';'] := rfl
          rw [he] at ht
          simp only [List.cons_append, List.nil_append, List.suffix_cons_iff] at ht
          rcases ht with h | h | h | h | h
          · subst h
            exact Or.inr (Or.inr (List.prefix_append ['&', 'g', 't', ';'] _))
          · subst h; simp at hh
          · subst h; simp at hh
          · subst h; simp at hh
          · exact ih t h hh
        · have he : escapeChar ch = [ch] := by simp [escapeChar, h1, h2, h3]
          rw [he] at ht
          simp only [List.cons_append, List.nil_append, List.suffix_cons_iff] at ht
          rcases ht with h | h
          · subst h
            simp only [List.head?_cons, Option.some.injEq] at hh
            exact absurd hh h1
          · exact ih t h hh

/-- C8: the reply to a `/status` whose `ServerStatus` call succeeded with payload
`stat` is the escaped pretty-printed payload between the two `pre` tags; and
for every string `escapeHTML` is the replacement of every character on its
own (ampersand, less-than and greater-than by their entities, any other
character kept), so its result holds no angle bracket, every ampersand in it
starts one of the three entities, and, the replacement being compatible with
concatenation, the text of an entity is never escaped again. -/
theorem status_reply_escaped {σ : Type} (L : Lib) (W : World σ) (c : APIClient) (fuel : Nat)
    (msg : TgMessage) (s : State σ) (stat : JMap) (s1 : State σ)
    (hcmd : hasPrefix (trimSpace msg.Text) "/status" = true)
    (hss : ServerStatus L W c fuel (s.log (Event.call Fn.handleCommand))
      = some (Except.ok stat, s1)) :
    handleCommand L W c fuel msg s =
      some (sendText s1 msg.Chat.ID ("<pre>" ++ escapeHTML (prettyJSON L stat) ++ "</pre>")) ∧
    (∀ t : String, escapeHTML t = escapeSpec t) ∧
    (∀ t : String, '<' ∉ (escapeHTML t).data ∧ '>' ∉ (escapeHTML t).data) ∧
    (∀ (t : String) (u : List Char), u <:+ (escapeHTML t).data → u.head? = some '&' →
      "&amp;".data <+: u ∨ "&lt;".data <+: u ∨ "&gt;".data <+: u) ∧
    (∀ a b : String, escapeHTML (a ++ b) = escapeHTML a ++ escapeHTML b) ∧
    escapeHTML "&" = "&amp;" ∧
    escapeHTML "a<b&c>" = "a&lt;b&amp;c&gt;" := by
  have h1 := hasPrefix_other (trimSpace msg.Text) "/status" "/start" (by decide) (by decide)
    hcmd (by decide)
  refine ⟨?_, ?_, ?_, ?_, ?_, by decide, by decide⟩
  · simp [handleCommand, h1, hcmd, hss]
  · intro t
    exact String.ext (escapeHTML_data t)
  · intro t
    rw [escapeHTML_data]
    simp only [List.mem_flatMap, not_exists, not_and]
    exact ⟨fun ch _ => (escapeChar_no_angle ch).1, fun ch _ => (escapeChar_no_angle ch).2⟩
  · intro t u hu hh
    rw [escapeHTML_data] at hu
    exact flatMap_escapeChar_amp t.data u hu hh
  · intro a b
    apply String.ext
    rw [String.data_append, escapeHTML_data, escapeHTML_data, escapeHTML_data,
      String.data_append, List.flatMap_append]

/-- C8, at the text "/status" against a panel that always answers 200, the
decoded payload being the one of `demoLib`. -/
theorem status_reply_escaped_witness :
    handleCommand demoLib okWorld demoClient 1 (demoMessage 1 "/status") okState =
      some { panel := (), loggedAt := 0,
             trace := [Event.call Fn.handleCommand, Event.call Fn.ServerStatus,
               Event.http (apiRequest demoClient "GET" "/panel/api/server/status" none),
               Event.sendMessage 1
                 ("<pre>" ++ escapeHTML (prettyJSON demoLib [("cpu", JVal.str "<1&2>")])
                   ++ "</pre>") ""] } :=
  (status_reply_escaped demoLib okWorld demoClient 1 (demoMessage 1 "/status") okState
    [("cpu", JVal.str "<1&2>")]
    { panel := (), loggedAt := 0,
      trace := [Event.call Fn.handleCommand, Event.call Fn.ServerStatus,
        Event.http (apiRequest demoClient "GET" "/panel/api/server/status" none)] }
    (by decide) rfl).1

/-! ## C9: the reply to `/inbounds` -/

/-- The loop over the inbounds appends one line per item to the builder. -/
theorem inboundsText_eq (L : Lib) (items : List JMap) :
    ∀ sb : String, inboundsText L sb items = sb ++ String.join (items.map (inboundLine L)) := by
  induction items with
  | nil =>
    intro sb
    apply String.ext
    simp [inboundsText, String.data_append]
  | cons i rest ih =>
    intro sb
    rw [inboundsText, ih]
    apply String.ext
    simp [String.data_append]

/-- C9: the reply to an `/inbounds` whose `Inbounds` call succeeded with `items`
is the concatenation, in the order of `items`, of one line per item: a
bullet, a blank, the `%v` rendering of the item's "remark" entry and a line
feed. An item without a "remark" entry yields the line with the nil marker.
For two items with the remarks X and Y the text is the two lines "• X" and
"• Y". -/
theorem inbounds_reply {σ : Type} (L : Lib) (W : World σ) (c : APIClient) (fuel : Nat)
    (msg : TgMessage) (s : State σ) (items : List JMap) (s1 : State σ)
    (hcmd : hasPrefix (trimSpace msg.Text) "/inbounds" = true)
    (hin : Inbounds L W c fuel (s.log (Event.call Fn.handleCommand))
      = some (Except.ok items, s1)) :
    handleCommand L W c fuel msg s =
      some (sendText s1 msg.Chat.ID
        (String.join (items.map (fun i => "• " ++ sprintV L (i.get "remark") ++ "\n")))) ∧
    (items.map (fun i => "• " ++ sprintV L (i.get "remark") ++ "\n")).length = items.length ∧
    (∀ i : JMap, i.get "remark" = none → inboundLine L i = "• <nil>\n") ∧
    inboundsText L "" [[("remark", JVal.str "X")], [("remark", JVal.str "Y")]]
      = "• X\n• Y\n" := by
  have other := hasPrefix_other (trimSpace msg.Text) "/inbounds"
  have h1 := other "/start" (by decide) (by decide) hcmd (by decide)
  have h2 := other "/status" (by decide) (by decide) hcmd (by decide)
  have h3 := other "/online" (by decide) (by decide) hcmd (by decide)
  refine ⟨?_, by simp, ?_, rfl⟩
  · have ht : inboundsText L "" items =
        String.join (items.map (fun i => "• " ++ sprintV L (i.get "remark") ++ "\n")) := by
      rw [inboundsText_eq]
      apply String.ext
      simp [String.data_append]
      rfl
    simp [handleCommand, h1, h2, h3, hcmd, hin, ht]
  · intro i hi
    simp [inboundLine, hi, sprintV]

/-- C9, at the text "/inbounds" against a panel that always answers 200, the
decoded list being the two items with the remarks X and Y. -/
theorem inbounds_reply_witness :
    handleCommand demoLib okWorld demoClient 1 (demoMessage 1 "/inbounds") okState =
      some { panel := (), loggedAt := 0,
             trace := [Event.call Fn.handleCommand, Event.call Fn.Inbounds,
               Event.http (apiRequest demoClient "GET" "/panel/api/inbounds/list" none),
               Event.sendMessage 1 "• X\n• Y\n" ""] } :=
  (inbounds_reply demoLib okWorld demoClient 1 (demoMessage 1 "/inbounds") okState
    [[("remark", JVal.str "X")], [("remark", JVal.str "Y")]]
    { panel := (), loggedAt := 0,
      trace := [Event.call Fn.handleCommand, Event.call Fn.Inbounds,
        Event.http (apiRequest demoClient "GET" "/panel/api/inbounds/list" none)] }
    (by decide) rfl).1

end XuiBot
